import Mathlib

/-!
Verification of the felix policy-calculation engine against its
natural-language specification.

The development shallowly embeds the relevant Go sources:

* calc/event_sequencer.go — the EventSequencer (coalescing output buffer),
  its input callbacks and its Flush schedule;
* go/felix/calc/calc_graph.go — the endpoint hostname filter and the
  PolicyByOrder comparator of the policy sorter;
* the logutils file — the most-verbose-log-level computation of
  ConfigureLogging.

Go finite sets (the set.Set package) are embedded as Lean lists with
set-flavoured add/discard operations; Go maps and the multidict package
become association lists.  Go map iteration order is unspecified, so the
list order chosen here is one admissible linearisation; none of the
properties proved below depend on intra-category iteration order.
-/

namespace Felix

/-! ## List-backed sets and association maps

These mirror the operations of the set.Set and multidict.StringToIface
packages used by the sequencer, and plain Go map update/delete. -/

/-- Set add: insert an element if not already present. -/
def sAdd [DecidableEq α] (l : List α) (x : α) : List α :=
  if x ∈ l then l else l ++ [x]

/-- Set discard: remove an element, no-op when absent. -/
def sDel [DecidableEq α] (l : List α) (x : α) : List α :=
  l.filter (fun y => decide (y ≠ x))

/-- Multidict put: record a key/value pair if not already present. -/
def mdPut [DecidableEq α] [DecidableEq β] (m : List (α × β)) (k : α) (v : β) :
    List (α × β) :=
  if (k, v) ∈ m then m else m ++ [(k, v)]

/-- Multidict discard of a single key/value pair. -/
def mdDiscard [DecidableEq α] [DecidableEq β] (m : List (α × β)) (k : α) (v : β) :
    List (α × β) :=
  m.filter (fun p => decide (p ≠ (k, v)))

/-- Multidict discard of every pair under a key. -/
def mdDiscardKey [DecidableEq α] (m : List (α × β)) (k : α) : List (α × β) :=
  m.filter (fun p => decide (p.1 ≠ k))

/-- Multidict: the values stored under a key, in insertion order. -/
def mdValues [DecidableEq α] (m : List (α × β)) (k : α) : List β :=
  (m.filter (fun p => decide (p.1 = k))).map Prod.snd

/-- Multidict: the distinct keys, in first-insertion order. -/
def mdKeys [DecidableEq α] (m : List (α × β)) : List α :=
  (m.map Prod.fst).dedup

/-- Go map lookup. -/
def mGet? [DecidableEq α] (m : List (α × β)) (k : α) : Option β :=
  (m.find? (fun p => decide (p.1 = k))).map Prod.snd

/-- Go map update (replace any binding of the key). -/
def mPut [DecidableEq α] (m : List (α × β)) (k : α) (v : β) : List (α × β) :=
  m.filter (fun p => decide (p.1 ≠ k)) ++ [(k, v)]

/-- Go map delete. -/
def mDel [DecidableEq α] (m : List (α × β)) (k : α) : List (α × β) :=
  m.filter (fun p => decide (p.1 ≠ k))

/-! ## Shared data types (libcalico-go model keys and felix calc types) -/

/-- model.PolicyKey: policies are identified by name (single default tier). -/
structure PolicyKey where
  name : String
deriving DecidableEq

/-- model.Policy, restricted to the fields the embedded code reads: the
optional numeric order (a Go *float64, embedded as Option of a rational —
the comparator only uses ordered-field comparisons) and the DoNotTrack
flag. -/
structure Policy where
  order : Option ℚ
  doNotTrack : Bool
deriving DecidableEq

/-- PolKV from go/felix/calc/calc_graph.go. -/
structure PolKV where
  key : PolicyKey
  value : Policy
deriving DecidableEq

/-- PolicyByOrder.Less from go/felix/calc/calc_graph.go lines 359-379,
translated clause by clause: the bothNil/bothSet/ordersEqual computation,
the name tie-break, the nil-maps-to-infinity cases, then the numeric
comparison. -/
def policyByOrderLess (a b : PolKV) : Bool :=
  let oi := a.value.order
  let oj := b.value.order
  let bothNil := oi.isNone && oj.isNone
  let bothSet := oi.isSome && oj.isSome
  let ordersEqual := bothNil || (bothSet && decide (oi = oj))
  if ordersEqual then
    decide (a.key.name < b.key.name)
  else
    match oi, oj with
    | none, _ => false
    | some _, none => true
    | some x, some y => decide (x < y)

/-- The specified sort key for policy order: a nil order is treated as
plus infinity. -/
def orderOrInf (o : Option ℚ) : WithTop ℚ :=
  match o with
  | none => ⊤
  | some x => (x : WithTop ℚ)

/-! ## Hostname filter (go/felix/calc/calc_graph.go) -/

/-- The tagged union of update-key kinds dispatched by the calculation
graph; endpoint keys carry the hostname field the filter inspects. -/
inductive UpdateKey where
  | workloadEndpoint (hostname orchestratorID workloadID endpointID : String)
  | hostEndpoint (hostname endpointID : String)
  | hostIP (hostname : String)
  | ipPool (cidr : String)
  | policy (name : String)
  | profileRules (name : String)
  | globalConfig (name : String)
deriving DecidableEq

/-- An api.Update record: a key plus whether a value is present (nil value
denotes deletion; the filter only logs based on it). -/
structure Update where
  key : UpdateKey
  hasValue : Bool
deriving DecidableEq

/-- endpointHostnameFilter.OnUpdate from go/felix/calc/calc_graph.go lines
244-264: filterOut starts false and is set for a workload- or
host-endpoint key whose Hostname differs from the filter hostname. -/
def endpointHostnameFilterOnUpdate (filterHostname : String) (u : Update) : Bool :=
  match u.key with
  | .workloadEndpoint h _ _ _ => decide (h ≠ filterHostname)
  | .hostEndpoint h _ => decide (h ≠ filterHostname)
  | _ => false

/-- The Hostname field of an update key, defined exactly for the two
endpoint key kinds. -/
def endpointKeyHostname : UpdateKey → Option String
  | .workloadEndpoint h _ _ _ => some h
  | .hostEndpoint h _ => some h
  | _ => none

/-! ## Log level computation (logutils ConfigureLogging) -/

/-- The most-verbose-level computation of ConfigureLogging, translated
statement by statement.  Logrus levels are numeric, Panic = 0 up to
Debug = 5, and a larger level is more verbose, so they are embedded as
naturals.  The computation starts from the screen level, raises it to the
file level if larger, and in the final branch — when the syslog level
exceeds the running maximum — the source assigns logLevelScreen. -/
def mostVerboseLevelCalc (logLevelScreen logLevelFile logLevelSyslog : Nat) :
    Nat :=
  let m1 := logLevelScreen
  let m2 := if logLevelFile > m1 then logLevelFile else m1
  if logLevelSyslog > m2 then logLevelScreen else m2

/-! ## Further data types used by the event sequencer -/

/-- model.ProfileRulesKey: profile rules are identified by name. -/
structure ProfileRulesKey where
  name : String
deriving DecidableEq

/-- ParsedRules, restricted to the fields the sequencer reads: the inbound
and outbound rule lists (individual rules stay opaque; the
parsedRulesToProtoRules conversion lives outside the given sources and
none of the claims depend on rule bodies, so messages carry the parsed
lists as they are) and the Untracked flag. -/
structure ParsedRules where
  inboundRules : List String
  outboundRules : List String
  untracked : Bool
deriving DecidableEq

/-- tierInfo as consumed by the sequencer: tier name plus the ordered
policy list (the sorter's map field is irrelevant to the sequencer). -/
structure TierInfo where
  name : String
  orderedPolicies : List PolKV
deriving DecidableEq

/-- proto.TierInfo: a tier name and its policy names in order. -/
structure ProtoTierInfo where
  name : String
  policies : List String
deriving DecidableEq

/-- proto.NatInfo. -/
structure ProtoNatInfo where
  extIp : String
  intIp : String
deriving DecidableEq

/-- model.WorkloadEndpoint, with IP networks and NAT mappings embedded by
their string forms (the sequencer only ever converts them to strings). -/
structure WorkloadEndpoint where
  state : String
  name : String
  mac : Option String
  profileIDs : List String
  ipv4Nets : List String
  ipv6Nets : List String
  ipv4NAT : List (String × String)
  ipv6NAT : List (String × String)
deriving DecidableEq

/-- model.HostEndpoint. -/
structure HostEndpoint where
  name : String
  expectedIPv4Addrs : List String
  expectedIPv6Addrs : List String
  profileIDs : List String
deriving DecidableEq

/-- The model.Key values the sequencer stores endpoints under. -/
inductive EndpointKey where
  | workload (hostname orchestratorID workloadID endpointID : String)
  | host (hostname endpointID : String)
deriving DecidableEq

/-- The dynamically-typed endpoint value passed to OnEndpointTierUpdate
(a *model.WorkloadEndpoint or *model.HostEndpoint behind interface
braces in Go). -/
inductive EndpointValue where
  | workloadEp (ep : WorkloadEndpoint)
  | hostEp (ep : HostEndpoint)
deriving DecidableEq

/-- model.IPPoolKey; the CIDR is embedded by its string form. -/
structure IPPoolKey where
  cidr : String
deriving DecidableEq

/-- model.IPPool, restricted to the fields the sequencer reads. -/
structure IPPool where
  cidr : String
  masquerade : Bool
deriving DecidableEq

/-- ip.CIDRFromCalicoNet: converts a calico net to the canonical ip.CIDR.
On the string embedding the canonical form is the string itself. -/
def cidrFromCalicoNet (c : String) : String := c

/-- Replace the first solidus character in a character list by a dash. -/
def replaceFirstSolidus : List Char → List Char
  | [] => []
  | c :: rest => if c = '/' then '-' :: rest else c :: replaceFirstSolidus rest

/-- cidrToIPPoolID from event_sequencer.go: the CIDR string with the
first solidus replaced by a dash (strings.Replace with count 1). -/
def cidrToIPPoolID (cidr : String) : String :=
  String.mk (replaceFirstSolidus cidr.data)

/-- Modelled from the spec: the configInterface implementation (the
external config module, not part of the given sources).  Per section 6 of
the spec, updateFrom stores the map for its source and reports whether
anything changed, and rawValues returns the merged snapshot (per-host
values overriding global ones).  Parse failures are fatal at startup and
are not modelled. -/
structure ConfigModel where
  globalCfg : List (String × String)
  hostCfg : List (String × String)
deriving DecidableEq

/-- The two datastore config sources. -/
inductive ConfigSource where
  | datastoreGlobal
  | datastorePerHost
deriving DecidableEq

/-- Modelled from the spec: configInterface.UpdateFrom. -/
def configUpdateFrom (c : ConfigModel) (m : List (String × String))
    (src : ConfigSource) : ConfigModel × Bool :=
  match src with
  | .datastoreGlobal => ({ c with globalCfg := m }, decide (c.globalCfg ≠ m))
  | .datastorePerHost => ({ c with hostCfg := m }, decide (c.hostCfg ≠ m))

/-- Modelled from the spec: configInterface.RawValues, the merged
snapshot. -/
def configRawValues (c : ConfigModel) : List (String × String) :=
  c.globalCfg.filter (fun p => decide ((mGet? c.hostCfg p.1).isNone)) ++ c.hostCfg

/-! ## Output messages

The tagged-union message type emitted through the sequencer callback,
one constructor per proto message the sequencer builds. -/

inductive Message where
  | datastoreNotReady
  | configUpdate (raw : List (String × String))
  | ipSetUpdate (id : String) (members : List String)
  | ipSetDeltaUpdate (id : String) (addedMembers removedMembers : List String)
  | activePolicyUpdate (tier name : String) (rules : ParsedRules)
  | activeProfileUpdate (name : String) (rules : ParsedRules)
  | workloadEndpointUpdate (orchestratorID workloadID endpointID : String)
      (state epName mac : String) (profileIds ipv4Nets ipv6Nets : List String)
      (tiers : List ProtoTierInfo) (ipv4Nat ipv6Nat : List ProtoNatInfo)
  | hostEndpointUpdate (endpointID : String) (epName : String)
      (expectedIpv4Addrs expectedIpv6Addrs profileIds : List String)
      (tiers untrackedTiers : List ProtoTierInfo)
  | workloadEndpointRemove (orchestratorID workloadID endpointID : String)
  | hostEndpointRemove (endpointID : String)
  | activeProfileRemove (name : String)
  | activePolicyRemove (tier name : String)
  | ipSetRemove (id : String)
  | hostMetadataRemove (hostname : String)
  | hostMetadataUpdate (hostname ipv4Addr : String)
  | ipamPoolRemove (id : String)
  | ipamPoolUpdate (id : String) (cidr : String) (masquerade : Bool)
deriving DecidableEq

/-- The category rank of a message in the Flush schedule of
event_sequencer.go (datastore-not-ready first, then config, IP set adds,
IP set deltas, policy updates, profile updates, endpoint updates,
endpoint removes, profile removes, policy removes, IP set removes,
host-IP removes, host-IP updates, IP-pool removes, IP-pool updates). -/
def msgRank : Message → Nat
  | .datastoreNotReady => 0
  | .configUpdate _ => 1
  | .ipSetUpdate _ _ => 2
  | .ipSetDeltaUpdate _ _ _ => 3
  | .activePolicyUpdate _ _ _ => 4
  | .activeProfileUpdate _ _ => 5
  | .workloadEndpointUpdate _ _ _ _ _ _ _ _ _ _ _ _ => 6
  | .hostEndpointUpdate _ _ _ _ _ _ _ => 6
  | .workloadEndpointRemove _ _ _ => 7
  | .hostEndpointRemove _ => 7
  | .activeProfileRemove _ => 8
  | .activePolicyRemove _ _ => 9
  | .ipSetRemove _ => 10
  | .hostMetadataRemove _ => 11
  | .hostMetadataUpdate _ _ => 12
  | .ipamPoolRemove _ => 13
  | .ipamPoolUpdate _ _ _ => 14

/-! ## The EventSequencer state -/

/-- The EventSequencer struct of calc/event_sequencer.go: the pending
coalescing buffers, the sent shadow sets, and the config interface. -/
structure EventSequencer where
  config : ConfigModel
  pendingAddedIPSets : List String
  pendingRemovedIPSets : List String
  pendingAddedIPs : List (String × String)
  pendingRemovedIPs : List (String × String)
  pendingPolicyUpdates : List (PolicyKey × ParsedRules)
  pendingPolicyDeletes : List PolicyKey
  pendingProfileUpdates : List (ProfileRulesKey × ParsedRules)
  pendingProfileDeletes : List ProfileRulesKey
  pendingEndpointUpdates : List (EndpointKey × EndpointValue)
  pendingEndpointTierUpdates : List (EndpointKey × List TierInfo)
  pendingEndpointDeletes : List EndpointKey
  pendingHostIPUpdates : List (String × String)
  pendingHostIPDeletes : List String
  pendingIPPoolUpdates : List (String × IPPool)
  pendingIPPoolDeletes : List String
  pendingNotReady : Bool
  pendingGlobalConfig : Option (List (String × String))
  pendingHostConfig : Option (List (String × String))
  sentIPSets : List String
  sentPolicies : List PolicyKey
  sentProfiles : List ProfileRulesKey
  sentEndpoints : List EndpointKey
  sentHostIPs : List String
  sentIPPools : List String
deriving DecidableEq

/-- NewEventBuffer: every buffer starts empty. -/
def newEventBuffer (conf : ConfigModel) : EventSequencer :=
  { config := conf
    pendingAddedIPSets := []
    pendingRemovedIPSets := []
    pendingAddedIPs := []
    pendingRemovedIPs := []
    pendingPolicyUpdates := []
    pendingPolicyDeletes := []
    pendingProfileUpdates := []
    pendingProfileDeletes := []
    pendingEndpointUpdates := []
    pendingEndpointTierUpdates := []
    pendingEndpointDeletes := []
    pendingHostIPUpdates := []
    pendingHostIPDeletes := []
    pendingIPPoolUpdates := []
    pendingIPPoolDeletes := []
    pendingNotReady := false
    pendingGlobalConfig := none
    pendingHostConfig := none
    sentIPSets := []
    sentPolicies := []
    sentProfiles := []
    sentEndpoints := []
    sentHostIPs := []
    sentIPPools := [] }

/-! ## Input callbacks

The four IP-set callbacks contain log.Panic consistency checks; they are
embedded as Option-returning functions where none is the panic. -/

/-- OnIPSetAdded: panics when the set was already sent and has no pending
removal; otherwise records the pending add and clears any pending
removal; an add implicitly empties the set, so both IP multidicts drop
the key. -/
def OnIPSetAdded (s : EventSequencer) (setID : String) : Option EventSequencer :=
  if setID ∈ s.sentIPSets ∧ setID ∉ s.pendingRemovedIPSets then
    none
  else
    some { s with
      pendingAddedIPSets := sAdd s.pendingAddedIPSets setID
      pendingRemovedIPSets := sDel s.pendingRemovedIPSets setID
      pendingAddedIPs := mdDiscardKey s.pendingAddedIPs setID
      pendingRemovedIPs := mdDiscardKey s.pendingRemovedIPs setID }

/-- OnIPSetRemoved: panics for an unknown set (neither sent nor
pending-added); queues a removal only when the set was sent; always
erases the pending add and the pending IP deltas. -/
def OnIPSetRemoved (s : EventSequencer) (setID : String) : Option EventSequencer :=
  if setID ∉ s.sentIPSets ∧ setID ∉ s.pendingAddedIPSets then
    none
  else
    some { s with
      pendingRemovedIPSets :=
        if setID ∈ s.sentIPSets then sAdd s.pendingRemovedIPSets setID
        else s.pendingRemovedIPSets
      pendingAddedIPSets := sDel s.pendingAddedIPSets setID
      pendingAddedIPs := mdDiscardKey s.pendingAddedIPs setID
      pendingRemovedIPs := mdDiscardKey s.pendingRemovedIPs setID }

/-- OnIPAdded: panics for an unknown set; cancels a pending removal of
the IP when there is one, otherwise queues the add. -/
def OnIPAdded (s : EventSequencer) (setID : String) (addr : String) :
    Option EventSequencer :=
  if setID ∉ s.sentIPSets ∧ setID ∉ s.pendingAddedIPSets then
    none
  else if (setID, addr) ∈ s.pendingRemovedIPs then
    some { s with pendingRemovedIPs := mdDiscard s.pendingRemovedIPs setID addr }
  else
    some { s with pendingAddedIPs := mdPut s.pendingAddedIPs setID addr }

/-- OnIPRemoved: panics for an unknown set; cancels a pending add of the
IP when there is one, otherwise queues the removal. -/
def OnIPRemoved (s : EventSequencer) (setID : String) (addr : String) :
    Option EventSequencer :=
  if setID ∉ s.sentIPSets ∧ setID ∉ s.pendingAddedIPSets then
    none
  else if (setID, addr) ∈ s.pendingAddedIPs then
    some { s with pendingAddedIPs := mdDiscard s.pendingAddedIPs setID addr }
  else
    some { s with pendingRemovedIPs := mdPut s.pendingRemovedIPs setID addr }

/-- OnDatastoreNotReady. -/
def OnDatastoreNotReady (s : EventSequencer) : EventSequencer :=
  { s with pendingNotReady := true }

/-- OnConfigUpdate. -/
def OnConfigUpdate (s : EventSequencer)
    (globalConfig hostConfig : List (String × String)) : EventSequencer :=
  { s with
    pendingGlobalConfig := some globalConfig
    pendingHostConfig := some hostConfig }

/-- OnPolicyActive. -/
def OnPolicyActive (s : EventSequencer) (key : PolicyKey) (rules : ParsedRules) :
    EventSequencer :=
  { s with
    pendingPolicyDeletes := sDel s.pendingPolicyDeletes key
    pendingPolicyUpdates := mPut s.pendingPolicyUpdates key rules }

/-- OnPolicyInactive. -/
def OnPolicyInactive (s : EventSequencer) (key : PolicyKey) : EventSequencer :=
  { s with
    pendingPolicyUpdates := mDel s.pendingPolicyUpdates key
    pendingPolicyDeletes :=
      if key ∈ s.sentPolicies then sAdd s.pendingPolicyDeletes key
      else s.pendingPolicyDeletes }

/-- OnProfileActive. -/
def OnProfileActive (s : EventSequencer) (key : ProfileRulesKey)
    (rules : ParsedRules) : EventSequencer :=
  { s with
    pendingProfileDeletes := sDel s.pendingProfileDeletes key
    pendingProfileUpdates := mPut s.pendingProfileUpdates key rules }

/-- OnProfileInactive. -/
def OnProfileInactive (s : EventSequencer) (key : ProfileRulesKey) :
    EventSequencer :=
  { s with
    pendingProfileUpdates := mDel s.pendingProfileUpdates key
    pendingProfileDeletes :=
      if key ∈ s.sentProfiles then sAdd s.pendingProfileDeletes key
      else s.pendingProfileDeletes }

/-- OnEndpointTierUpdate: a nil endpoint squashes queued updates and
queues a deletion only when the endpoint was previously sent; a non-nil
endpoint cancels any pending deletion and queues the update together with
its filtered tiers. -/
def OnEndpointTierUpdate (s : EventSequencer) (key : EndpointKey)
    (endpoint : Option EndpointValue) (filteredTiers : List TierInfo) :
    EventSequencer :=
  match endpoint with
  | none =>
    { s with
      pendingEndpointUpdates := mDel s.pendingEndpointUpdates key
      pendingEndpointTierUpdates := mDel s.pendingEndpointTierUpdates key
      pendingEndpointDeletes :=
        if key ∈ s.sentEndpoints then sAdd s.pendingEndpointDeletes key
        else s.pendingEndpointDeletes }
  | some ep =>
    { s with
      pendingEndpointDeletes := sDel s.pendingEndpointDeletes key
      pendingEndpointUpdates := mPut s.pendingEndpointUpdates key ep
      pendingEndpointTierUpdates := mPut s.pendingEndpointTierUpdates key filteredTiers }

/-- OnHostIPUpdate. -/
def OnHostIPUpdate (s : EventSequencer) (hostname : String) (ip : String) :
    EventSequencer :=
  { s with
    pendingHostIPDeletes := sDel s.pendingHostIPDeletes hostname
    pendingHostIPUpdates := mPut s.pendingHostIPUpdates hostname ip }

/-- OnHostIPRemove. -/
def OnHostIPRemove (s : EventSequencer) (hostname : String) : EventSequencer :=
  { s with
    pendingHostIPUpdates := mDel s.pendingHostIPUpdates hostname
    pendingHostIPDeletes :=
      if hostname ∈ s.sentHostIPs then sAdd s.pendingHostIPDeletes hostname
      else s.pendingHostIPDeletes }

/-- OnIPPoolUpdate.  The source calls pendingIPPoolDeletes.Discard with
the model.IPPoolKey value itself, but that set only ever holds ip.CIDR
values (see OnIPPoolRemove and flushIPPoolDeletes, which cast its items
to ip.CIDR); Go interface equality compares dynamic types first, so the
discard never matches an entry and the pending-delete set is left
unchanged here. -/
def OnIPPoolUpdate (s : EventSequencer) (key : IPPoolKey) (pool : IPPool) :
    EventSequencer :=
  let cidr := cidrFromCalicoNet key.cidr
  { s with pendingIPPoolUpdates := mPut s.pendingIPPoolUpdates cidr pool }

/-- OnIPPoolRemove. -/
def OnIPPoolRemove (s : EventSequencer) (key : IPPoolKey) : EventSequencer :=
  let cidr := cidrFromCalicoNet key.cidr
  { s with
    pendingIPPoolUpdates := mDel s.pendingIPPoolUpdates cidr
    pendingIPPoolDeletes :=
      if cidr ∈ s.sentIPPools then sAdd s.pendingIPPoolDeletes cidr
      else s.pendingIPPoolDeletes }

/-! ## Endpoint conversion helpers -/

/-- netsToStrings: the networks are already embedded as strings. -/
def netsToStrings (nets : List String) : List String := nets

/-- ipsToStrings: likewise. -/
def ipsToStrings (ips : List String) : List String := ips

/-- natsToProtoNatInfo. -/
def natsToProtoNatInfo (nats : List (String × String)) : List ProtoNatInfo :=
  nats.map (fun p => { extIp := p.1, intIp := p.2 })

/-- tierInfoToProtoTierInfo: per tier, partition the ordered policies by
the DoNotTrack flag into tracked and untracked name lists, and emit a
proto TierInfo for a list only when it is non-empty. -/
def tierInfoToProtoTierInfo (filteredTiers : List TierInfo) :
    List ProtoTierInfo × List ProtoTierInfo :=
  filteredTiers.foldl
    (fun acc ti =>
      let trackedPols :=
        (ti.orderedPolicies.filter (fun kv => kv.value.doNotTrack = false)).map
          (fun kv => kv.key.name)
      let untrackedPols :=
        (ti.orderedPolicies.filter (fun kv => kv.value.doNotTrack = true)).map
          (fun kv => kv.key.name)
      ((if trackedPols.isEmpty then acc.1
        else acc.1 ++ [{ name := ti.name, policies := trackedPols }]),
       (if untrackedPols.isEmpty then acc.2
        else acc.2 ++ [{ name := ti.name, policies := untrackedPols }])))
    ([], [])

/-- ModelWorkloadEndpointToProto: note that only the (tracked) tiers are
taken; the constructed proto.WorkloadEndpoint carries no untracked
tiers. -/
def modelWorkloadEndpointToProtoMsg (orchestratorID workloadID endpointID : String)
    (ep : WorkloadEndpoint) (tiers : List ProtoTierInfo) : Message :=
  .workloadEndpointUpdate orchestratorID workloadID endpointID
    ep.state ep.name (ep.mac.getD "") ep.profileIDs
    (netsToStrings ep.ipv4Nets) (netsToStrings ep.ipv6Nets)
    tiers (natsToProtoNatInfo ep.ipv4NAT) (natsToProtoNatInfo ep.ipv6NAT)

/-- ModelHostEndpointToProto: carries both the tracked and the untracked
tiers. -/
def modelHostEndpointToProtoMsg (endpointID : String) (ep : HostEndpoint)
    (tiers untrackedTiers : List ProtoTierInfo) : Message :=
  .hostEndpointUpdate endpointID ep.name
    (ipsToStrings ep.expectedIPv4Addrs) (ipsToStrings ep.expectedIPv6Addrs)
    ep.profileIDs tiers untrackedTiers

/-! ## Flush

Each flushX function of the source becomes a function from the state to
the new state plus the list of messages passed to the callback.  The
source iterates sets and maps while removing consumed entries; the loops
below thread the state through an iteration over a snapshot of the
buffer, which the source semantics guarantees is equivalent (an iteration
only deletes the entry it is visiting). -/

/-- flushReadyFlag. -/
def flushReadyFlag (s : EventSequencer) : EventSequencer × List Message :=
  if s.pendingNotReady then
    ({ s with pendingNotReady := false }, [.datastoreNotReady])
  else
    (s, [])

/-- flushConfigUpdate: a nil pending global config means nothing to do;
otherwise both sources are applied to the config interface and a
ConfigUpdate message is emitted only when something changed, after which
both pending maps are cleared. -/
def flushConfigUpdate (s : EventSequencer) : EventSequencer × List Message :=
  match s.pendingGlobalConfig with
  | none => (s, [])
  | some g =>
    let r1 := configUpdateFrom s.config g .datastoreGlobal
    let r2 := configUpdateFrom r1.1 (s.pendingHostConfig.getD []) .datastorePerHost
    ({ s with
        config := r2.1
        pendingGlobalConfig := none
        pendingHostConfig := none },
     if r1.2 || r2.2 then [.configUpdate (configRawValues r2.1)] else [])

/-- The loop body of flushAddedIPSets: emit an IPSetUpdate carrying the
pending member list of the set, drop that key from the pending-added
multidict and mark the set sent. -/
def flushAddedIPSetsLoop (ids : List String) (s : EventSequencer) :
    EventSequencer × List Message :=
  match ids with
  | [] => (s, [])
  | setID :: rest =>
    let members := mdValues s.pendingAddedIPs setID
    let s1 := { s with
      pendingAddedIPs := mdDiscardKey s.pendingAddedIPs setID
      sentIPSets := sAdd s.sentIPSets setID }
    let r := flushAddedIPSetsLoop rest s1
    (r.1, .ipSetUpdate setID members :: r.2)

/-- flushAddedIPSets: iterate the pending-added set, removing each item. -/
def flushAddedIPSets (s : EventSequencer) : EventSequencer × List Message :=
  flushAddedIPSetsLoop s.pendingAddedIPSets { s with pendingAddedIPSets := [] }

/-- The loop body of flushAddsOrRemoves: emit one IPSetDeltaUpdate per
set id carrying its pending added and removed members, then drop the key
from both multidicts. -/
def flushDeltasLoop (ids : List String) (s : EventSequencer) :
    EventSequencer × List Message :=
  match ids with
  | [] => (s, [])
  | setID :: rest =>
    let added := mdValues s.pendingAddedIPs setID
    let removed := mdValues s.pendingRemovedIPs setID
    let s1 := { s with
      pendingAddedIPs := mdDiscardKey s.pendingAddedIPs setID
      pendingRemovedIPs := mdDiscardKey s.pendingRemovedIPs setID }
    let r := flushDeltasLoop rest s1
    (r.1, .ipSetDeltaUpdate setID added removed :: r.2)

/-- flushIPSetDeltas: first every key of the pending-removed multidict,
then every key still present in the pending-added multidict. -/
def flushIPSetDeltas (s : EventSequencer) : EventSequencer × List Message :=
  let r1 := flushDeltasLoop (mdKeys s.pendingRemovedIPs) s
  let r2 := flushDeltasLoop (mdKeys r1.1.pendingAddedIPs) r1.1
  (r2.1, r1.2 ++ r2.2)

/-- The loop body of flushPolicyUpdates. -/
def flushPolicyUpdatesLoop (items : List (PolicyKey × ParsedRules))
    (s : EventSequencer) : EventSequencer × List Message :=
  match items with
  | [] => (s, [])
  | (key, rules) :: rest =>
    let s1 := { s with sentPolicies := sAdd s.sentPolicies key }
    let r := flushPolicyUpdatesLoop rest s1
    (r.1, .activePolicyUpdate "default" key.name rules :: r.2)

/-- flushPolicyUpdates: drain the pending policy updates, marking each
policy sent. -/
def flushPolicyUpdates (s : EventSequencer) : EventSequencer × List Message :=
  flushPolicyUpdatesLoop s.pendingPolicyUpdates { s with pendingPolicyUpdates := [] }

/-- The loop body of flushProfileUpdates. -/
def flushProfileUpdatesLoop (items : List (ProfileRulesKey × ParsedRules))
    (s : EventSequencer) : EventSequencer × List Message :=
  match items with
  | [] => (s, [])
  | (key, rules) :: rest =>
    let s1 := { s with sentProfiles := sAdd s.sentProfiles key }
    let r := flushProfileUpdatesLoop rest s1
    (r.1, .activeProfileUpdate key.name rules :: r.2)

/-- flushProfileUpdates. -/
def flushProfileUpdates (s : EventSequencer) : EventSequencer × List Message :=
  flushProfileUpdatesLoop s.pendingProfileUpdates
    { s with pendingProfileUpdates := [] }

/-- The per-entry emission of flushEndpointTierUpdates: the key kind is
switched on and the endpoint value downcast accordingly; a workload
endpoint message takes only the tracked tiers, a host endpoint message
takes both lists.  (A key/value kind mismatch cannot arise from the
upstream graph — in Go it would be a failing type assertion.) -/
def endpointUpdateMsg (key : EndpointKey) (ep : EndpointValue)
    (tiers untrackedTiers : List ProtoTierInfo) : Option Message :=
  match key, ep with
  | .workload _ orch wl epid, .workloadEp wep =>
    some (modelWorkloadEndpointToProtoMsg orch wl epid wep tiers)
  | .host _ epid, .hostEp hep =>
    some (modelHostEndpointToProtoMsg epid hep tiers untrackedTiers)
  | _, _ => none

/-- The loop body of flushEndpointTierUpdates: look up the pending tiers
for the key, split them tracked/untracked, emit the update, mark the
endpoint sent and drop the pending tier entry. -/
def flushEndpointTierUpdatesLoop (items : List (EndpointKey × EndpointValue))
    (s : EventSequencer) : EventSequencer × List Message :=
  match items with
  | [] => (s, [])
  | (key, ep) :: rest =>
    let split := tierInfoToProtoTierInfo ((mGet? s.pendingEndpointTierUpdates key).getD [])
    let msg := endpointUpdateMsg key ep split.1 split.2
    let s1 := { s with
      sentEndpoints := sAdd s.sentEndpoints key
      pendingEndpointTierUpdates := mDel s.pendingEndpointTierUpdates key }
    let r := flushEndpointTierUpdatesLoop rest s1
    (r.1, msg.toList ++ r.2)

/-- flushEndpointTierUpdates. -/
def flushEndpointTierUpdates (s : EventSequencer) : EventSequencer × List Message :=
  flushEndpointTierUpdatesLoop s.pendingEndpointUpdates
    { s with pendingEndpointUpdates := [] }

/-- The per-key emission of flushEndpointTierDeletes. -/
def endpointRemoveMsg (key : EndpointKey) : Message :=
  match key with
  | .workload _ orch wl epid => .workloadEndpointRemove orch wl epid
  | .host _ epid => .hostEndpointRemove epid

/-- The loop body of flushEndpointTierDeletes. -/
def flushEndpointTierDeletesLoop (keys : List EndpointKey) (s : EventSequencer) :
    EventSequencer × List Message :=
  match keys with
  | [] => (s, [])
  | key :: rest =>
    let s1 := { s with sentEndpoints := sDel s.sentEndpoints key }
    let r := flushEndpointTierDeletesLoop rest s1
    (r.1, endpointRemoveMsg key :: r.2)

/-- flushEndpointTierDeletes. -/
def flushEndpointTierDeletes (s : EventSequencer) : EventSequencer × List Message :=
  flushEndpointTierDeletesLoop s.pendingEndpointDeletes
    { s with pendingEndpointDeletes := [] }

/-- The loop body of flushProfileDeletes. -/
def flushProfileDeletesLoop (keys : List ProfileRulesKey) (s : EventSequencer) :
    EventSequencer × List Message :=
  match keys with
  | [] => (s, [])
  | key :: rest =>
    let s1 := { s with sentProfiles := sDel s.sentProfiles key }
    let r := flushProfileDeletesLoop rest s1
    (r.1, .activeProfileRemove key.name :: r.2)

/-- flushProfileDeletes. -/
def flushProfileDeletes (s : EventSequencer) : EventSequencer × List Message :=
  flushProfileDeletesLoop s.pendingProfileDeletes
    { s with pendingProfileDeletes := [] }

/-- The loop body of flushPolicyDeletes. -/
def flushPolicyDeletesLoop (keys : List PolicyKey) (s : EventSequencer) :
    EventSequencer × List Message :=
  match keys with
  | [] => (s, [])
  | key :: rest =>
    let s1 := { s with sentPolicies := sDel s.sentPolicies key }
    let r := flushPolicyDeletesLoop rest s1
    (r.1, .activePolicyRemove "default" key.name :: r.2)

/-- flushPolicyDeletes. -/
def flushPolicyDeletes (s : EventSequencer) : EventSequencer × List Message :=
  flushPolicyDeletesLoop s.pendingPolicyDeletes
    { s with pendingPolicyDeletes := [] }

/-- The loop body of flushRemovedIPSets: emit the IPSetRemove, drop the
set's entries from both IP multidicts, and un-mark the set as sent. -/
def flushRemovedIPSetsLoop (ids : List String) (s : EventSequencer) :
    EventSequencer × List Message :=
  match ids with
  | [] => (s, [])
  | setID :: rest =>
    let s1 := { s with
      pendingRemovedIPs := mdDiscardKey s.pendingRemovedIPs setID
      pendingAddedIPs := mdDiscardKey s.pendingAddedIPs setID
      sentIPSets := sDel s.sentIPSets setID }
    let r := flushRemovedIPSetsLoop rest s1
    (r.1, .ipSetRemove setID :: r.2)

/-- flushRemovedIPSets. -/
def flushRemovedIPSets (s : EventSequencer) : EventSequencer × List Message :=
  flushRemovedIPSetsLoop s.pendingRemovedIPSets
    { s with pendingRemovedIPSets := [] }

/-- The loop body of flushHostIPDeletes. -/
def flushHostIPDeletesLoop (hosts : List String) (s : EventSequencer) :
    EventSequencer × List Message :=
  match hosts with
  | [] => (s, [])
  | hostname :: rest =>
    let s1 := { s with sentHostIPs := sDel s.sentHostIPs hostname }
    let r := flushHostIPDeletesLoop rest s1
    (r.1, .hostMetadataRemove hostname :: r.2)

/-- flushHostIPDeletes. -/
def flushHostIPDeletes (s : EventSequencer) : EventSequencer × List Message :=
  flushHostIPDeletesLoop s.pendingHostIPDeletes
    { s with pendingHostIPDeletes := [] }

/-- The loop body of flushHostIPUpdates. -/
def flushHostIPUpdatesLoop (items : List (String × String)) (s : EventSequencer) :
    EventSequencer × List Message :=
  match items with
  | [] => (s, [])
  | (hostname, ip) :: rest =>
    let s1 := { s with sentHostIPs := sAdd s.sentHostIPs hostname }
    let r := flushHostIPUpdatesLoop rest s1
    (r.1, .hostMetadataUpdate hostname ip :: r.2)

/-- flushHostIPUpdates. -/
def flushHostIPUpdates (s : EventSequencer) : EventSequencer × List Message :=
  flushHostIPUpdatesLoop s.pendingHostIPUpdates
    { s with pendingHostIPUpdates := [] }

/-- The loop body of flushIPPoolDeletes. -/
def flushIPPoolDeletesLoop (cidrs : List String) (s : EventSequencer) :
    EventSequencer × List Message :=
  match cidrs with
  | [] => (s, [])
  | cidr :: rest =>
    let s1 := { s with sentIPPools := sDel s.sentIPPools cidr }
    let r := flushIPPoolDeletesLoop rest s1
    (r.1, .ipamPoolRemove (cidrToIPPoolID cidr) :: r.2)

/-- flushIPPoolDeletes. -/
def flushIPPoolDeletes (s : EventSequencer) : EventSequencer × List Message :=
  flushIPPoolDeletesLoop s.pendingIPPoolDeletes
    { s with pendingIPPoolDeletes := [] }

/-- The loop body of flushIPPoolUpdates. -/
def flushIPPoolUpdatesLoop (items : List (String × IPPool)) (s : EventSequencer) :
    EventSequencer × List Message :=
  match items with
  | [] => (s, [])
  | (cidr, pool) :: rest =>
    let s1 := { s with sentIPPools := sAdd s.sentIPPools cidr }
    let r := flushIPPoolUpdatesLoop rest s1
    (r.1, .ipamPoolUpdate (cidrToIPPoolID cidr) pool.cidr pool.masquerade :: r.2)

/-- flushIPPoolUpdates. -/
def flushIPPoolUpdates (s : EventSequencer) : EventSequencer × List Message :=
  flushIPPoolUpdatesLoop s.pendingIPPoolUpdates
    { s with pendingIPPoolUpdates := [] }

/-- Flush: the full dependency-ordered flush schedule of
event_sequencer.go lines 508-533. -/
def Flush (s0 : EventSequencer) : EventSequencer × List Message :=
  let r1 := flushReadyFlag s0
  let r2 := flushConfigUpdate r1.1
  let r3 := flushAddedIPSets r2.1
  let r4 := flushIPSetDeltas r3.1
  let r5 := flushPolicyUpdates r4.1
  let r6 := flushProfileUpdates r5.1
  let r7 := flushEndpointTierUpdates r6.1
  let r8 := flushEndpointTierDeletes r7.1
  let r9 := flushProfileDeletes r8.1
  let r10 := flushPolicyDeletes r9.1
  let r11 := flushRemovedIPSets r10.1
  let r12 := flushHostIPDeletes r11.1
  let r13 := flushHostIPUpdates r12.1
  let r14 := flushIPPoolDeletes r13.1
  let r15 := flushIPPoolUpdates r14.1
  (r15.1,
    r1.2 ++ r2.2 ++ r3.2 ++ r4.2 ++ r5.2 ++ r6.2 ++ r7.2 ++ r8.2 ++ r9.2 ++
      r10.2 ++ r11.2 ++ r12.2 ++ r13.2 ++ r14.2 ++ r15.2)

/-! ## The intermediate states of the flush schedule

flushStageN s is the sequencer state after the first N stages of Flush
have run; naming them keeps the statements about individual stages
readable. -/

def flushStage1 (s : EventSequencer) : EventSequencer := (flushReadyFlag s).1

def flushStage2 (s : EventSequencer) : EventSequencer :=
  (flushConfigUpdate (flushStage1 s)).1

def flushStage3 (s : EventSequencer) : EventSequencer :=
  (flushAddedIPSets (flushStage2 s)).1

def flushStage4 (s : EventSequencer) : EventSequencer :=
  (flushIPSetDeltas (flushStage3 s)).1

def flushStage5 (s : EventSequencer) : EventSequencer :=
  (flushPolicyUpdates (flushStage4 s)).1

def flushStage6 (s : EventSequencer) : EventSequencer :=
  (flushProfileUpdates (flushStage5 s)).1

def flushStage7 (s : EventSequencer) : EventSequencer :=
  (flushEndpointTierUpdates (flushStage6 s)).1

def flushStage8 (s : EventSequencer) : EventSequencer :=
  (flushEndpointTierDeletes (flushStage7 s)).1

def flushStage9 (s : EventSequencer) : EventSequencer :=
  (flushProfileDeletes (flushStage8 s)).1

def flushStage10 (s : EventSequencer) : EventSequencer :=
  (flushPolicyDeletes (flushStage9 s)).1

def flushStage11 (s : EventSequencer) : EventSequencer :=
  (flushRemovedIPSets (flushStage10 s)).1

def flushStage12 (s : EventSequencer) : EventSequencer :=
  (flushHostIPDeletes (flushStage11 s)).1

def flushStage13 (s : EventSequencer) : EventSequencer :=
  (flushHostIPUpdates (flushStage12 s)).1

def flushStage14 (s : EventSequencer) : EventSequencer :=
  (flushIPPoolDeletes (flushStage13 s)).1

/-! ## Derived notions used to state the claims -/

/-- The state part of flushConfigUpdate: the config interface after both
pending maps have been applied. -/
def configAfter (s : EventSequencer) : ConfigModel :=
  match s.pendingGlobalConfig with
  | none => s.config
  | some g =>
    (configUpdateFrom (configUpdateFrom s.config g .datastoreGlobal).1
      (s.pendingHostConfig.getD []) .datastorePerHost).1

/-- The pending host config after flushConfigUpdate: cleared only when a
global config was pending (the source returns early otherwise). -/
def hostCfgAfter (s : EventSequencer) : Option (List (String × String)) :=
  match s.pendingGlobalConfig with
  | none => s.pendingHostConfig
  | some _ => none

/-- Whether a message is about the given IP set (an IPSetUpdate,
IPSetDeltaUpdate or IPSetRemove carrying that id). -/
def mentionsIPSet (id : String) : Message → Bool
  | .ipSetUpdate i _ => i == id
  | .ipSetDeltaUpdate i _ _ => i == id
  | .ipSetRemove i => i == id
  | _ => false

/-- Whether a message is about the given endpoint key: an endpoint update
or remove whose proto identifier fields coincide with the key's (proto
endpoint identifiers do not carry the hostname). -/
def mentionsEndpoint (k : EndpointKey) (m : Message) : Bool :=
  match k, m with
  | .workload _ o w e, .workloadEndpointUpdate o' w' e' _ _ _ _ _ _ _ _ _ =>
    o == o' && w == w' && e == e'
  | .workload _ o w e, .workloadEndpointRemove o' w' e' =>
    o == o' && w == w' && e == e'
  | .host _ e, .hostEndpointUpdate e' _ _ _ _ _ _ => e == e'
  | .host _ e, .hostEndpointRemove e' => e == e'
  | _, _ => false

/-- Whether two endpoint keys share the same proto identifier (equal
apart from, possibly, the hostname). -/
def epIdMatches (k k' : EndpointKey) : Bool :=
  match k, k' with
  | .workload _ o w e, .workload _ o' w' e' => o == o' && w == w' && e == e'
  | .host _ e, .host _ e' => e == e'
  | _, _ => false

/-- The tracked proto TierInfo of a tier: the names of its non-DoNotTrack
policies in order, emitted only when non-empty. -/
def trackedTierOf (ti : TierInfo) : Option ProtoTierInfo :=
  let pols :=
    (ti.orderedPolicies.filter (fun kv => kv.value.doNotTrack = false)).map
      (fun kv => kv.key.name)
  if pols.isEmpty then none else some { name := ti.name, policies := pols }

/-- The untracked proto TierInfo of a tier. -/
def untrackedTierOf (ti : TierInfo) : Option ProtoTierInfo :=
  let pols :=
    (ti.orderedPolicies.filter (fun kv => kv.value.doNotTrack = true)).map
      (fun kv => kv.key.name)
  if pols.isEmpty then none else some { name := ti.name, policies := pols }

/-- The tracked-tier payload of an endpoint update message. -/
def msgTiers : Message → Option (List ProtoTierInfo)
  | .workloadEndpointUpdate _ _ _ _ _ _ _ _ _ tiers _ _ => some tiers
  | .hostEndpointUpdate _ _ _ _ _ tiers _ => some tiers
  | _ => none

/-- The untracked-tier payload of an endpoint update message: only a host
endpoint update carries one; a workload endpoint update has no such
field. -/
def msgUntrackedTiers : Message → Option (List ProtoTierInfo)
  | .hostEndpointUpdate _ _ _ _ _ _ untrackedTiers => some untrackedTiers
  | _ => none

/-- Fold OnIPAdded over a list of member addresses (the member adds that
follow a set re-add), propagating the panic case. -/
def applyIPAdds (s : EventSequencer) (setID : String) (addrs : List String) :
    Option EventSequencer :=
  match addrs with
  | [] => some s
  | a :: rest =>
    match OnIPAdded s setID a with
    | none => none
    | some s1 => applyIPAdds s1 setID rest

/-- All message-producing pending buffers are empty: such a state flushes
to no output.  (pendingEndpointTierUpdates and pendingHostConfig are
deliberately absent: a dangling tier entry or host-only config produces
no message.) -/
def Drained (s : EventSequencer) : Prop :=
  s.pendingNotReady = false ∧
  s.pendingGlobalConfig = none ∧
  s.pendingAddedIPSets = [] ∧
  s.pendingRemovedIPSets = [] ∧
  s.pendingAddedIPs = [] ∧
  s.pendingRemovedIPs = [] ∧
  s.pendingPolicyUpdates = [] ∧
  s.pendingPolicyDeletes = [] ∧
  s.pendingProfileUpdates = [] ∧
  s.pendingProfileDeletes = [] ∧
  s.pendingEndpointUpdates = [] ∧
  s.pendingEndpointDeletes = [] ∧
  s.pendingHostIPUpdates = [] ∧
  s.pendingHostIPDeletes = [] ∧
  s.pendingIPPoolUpdates = [] ∧
  s.pendingIPPoolDeletes = []

/-! ## Concrete instances used by counterexample and failing-input
theorems -/

/-- An empty config interface for concrete runs. -/
def cfg0 : ConfigModel := { globalCfg := [], hostCfg := [] }

/-- A policy marked do-not-track, for the C8 counterexample. -/
def untrackedPolKV : PolKV :=
  { key := { name := "polU" }, value := { order := some 1, doNotTrack := true } }

/-- A tier whose only policy is untracked. -/
def tierC8 : TierInfo := { name := "default", orderedPolicies := [untrackedPolKV] }

/-- A minimal workload endpoint value. -/
def wepC8 : WorkloadEndpoint :=
  { state := "active", name := "cali1", mac := none, profileIDs := []
    ipv4Nets := [], ipv6Nets := [], ipv4NAT := [], ipv6NAT := [] }

/-- A local workload endpoint key. -/
def wkeyC8 : EndpointKey := .workload "host1" "orch" "wl1" "ep1"

/-- The sequencer state holding one pending workload endpoint whose tier
list contains only an untracked policy. -/
def sC8 : EventSequencer :=
  OnEndpointTierUpdate (newEventBuffer cfg0) wkeyC8 (some (.workloadEp wepC8)) [tierC8]

/-- The pool key and value for the C10 failing input. -/
def poolKeyC10 : IPPoolKey := { cidr := "10.1.0.0/16" }

/-- The pool value for the C10 failing input. -/
def poolC10 : IPPool := { cidr := "10.1.0.0/16", masquerade := false }

/-- The C10 failing input: update a pool, flush it, remove it, then
update it again before the next flush. -/
def sC10 : EventSequencer :=
  OnIPPoolUpdate
    (OnIPPoolRemove (Flush (OnIPPoolUpdate (newEventBuffer cfg0) poolKeyC10 poolC10)).1
      poolKeyC10)
    poolKeyC10 poolC10

/-- The concrete state for the C2 witness: set a pending-added and never
sent, one pending IP removal against it, everything else empty. -/
def sC2 : EventSequencer :=
  { newEventBuffer cfg0 with
    pendingAddedIPSets := ["a"]
    pendingRemovedIPs := [("a", "10.0.0.2")] }

/-- The endpoint key for the C2 witness. -/
def kC2 : EndpointKey := .workload "host1" "orch" "wl" "ep"

/-- The concrete state for the C4 witness: one IP set sent in an earlier
flush. -/
def sC4 : EventSequencer :=
  { newEventBuffer cfg0 with sentIPSets := ["a"] }

/-! ## Theorems for claims C5, C7 and C9 -/

/-- C5: PolicyByOrder.Less is exactly the strict lexicographic order on
(order, name) with a nil order treated as plus infinity: the policy with
the smaller numeric order precedes, nil sorts after every set order, and
on equal (or both-nil) orders the lexicographically smaller name
precedes. -/
theorem policyByOrderLess_iff_lex (a b : PolKV) :
    policyByOrderLess a b = true ↔
      (orderOrInf a.value.order < orderOrInf b.value.order ∨
        (orderOrInf a.value.order = orderOrInf b.value.order ∧
          a.key.name < b.key.name)) := by
  cases ha : a.value.order with
  | none =>
    cases hb : b.value.order with
    | none =>
      simp [policyByOrderLess, orderOrInf, ha, hb]
    | some y =>
      simp [policyByOrderLess, orderOrInf, ha, hb]
  | some x =>
    cases hb : b.value.order with
    | none =>
      simp [policyByOrderLess, orderOrInf, ha, hb]
    | some y =>
      by_cases hxy : x = y
      · subst hxy
        simp [policyByOrderLess, orderOrInf, ha, hb]
      · simp [policyByOrderLess, orderOrInf, ha, hb, hxy]

/-- C7: the hostname filter returns filterOut = true exactly when the
update key is a workload- or host-endpoint key whose Hostname field
differs from the configured hostname, and false for every other key
kind. -/
theorem endpointHostnameFilter_filterOut_iff (fh : String) (u : Update) :
    endpointHostnameFilterOnUpdate fh u = true ↔
      (∃ h, endpointKeyHostname u.key = some h ∧ h ≠ fh) := by
  cases u with
  | mk key hasValue =>
    cases key <;>
      simp [endpointHostnameFilterOnUpdate, endpointKeyHostname]

/-- C9: when the parsed syslog level is strictly more verbose than both
the screen and the file levels, the global level computed by
ConfigureLogging is logLevelScreen, not logLevelSyslog. -/
theorem mostVerbose_syslog_branch_uses_screen
    (screen file syslogLv : Nat)
    (hs : screen < syslogLv) (hf : file < syslogLv) :
    mostVerboseLevelCalc screen file syslogLv = screen ∧
      mostVerboseLevelCalc screen file syslogLv ≠ syslogLv := by
  have hmax : (if file > screen then file else screen) < syslogLv := by
    split <;> omega
  have h : mostVerboseLevelCalc screen file syslogLv = screen := by
    show (if syslogLv > (if file > screen then file else screen) then screen
          else (if file > screen then file else screen)) = screen
    rw [if_pos hmax]
  exact ⟨h, by rw [h]; omega⟩

/-- Witness for C9's theorem at the concrete input screen = 1 (fatal),
file = 2 (error), syslog = 5 (debug): the computed global level is the
screen level. -/
theorem mostVerbose_syslog_branch_uses_screen_witness :
    mostVerboseLevelCalc 1 2 5 = 1 ∧ mostVerboseLevelCalc 1 2 5 ≠ 5 :=
  mostVerbose_syslog_branch_uses_screen 1 2 5 (by decide) (by decide)


/-! ## Helper lemmas on the list-backed sets and maps -/

theorem mem_sAdd [DecidableEq α] (l : List α) (x y : α) :
    x ∈ sAdd l y ↔ x ∈ l ∨ x = y := by
  unfold sAdd
  split
  · rename_i h
    constructor
    · exact fun hx => Or.inl hx
    · rintro (hx | rfl)
      · exact hx
      · exact h
  · simp [List.mem_append]

theorem mem_sDel [DecidableEq α] (l : List α) (x y : α) :
    x ∈ sDel l y ↔ x ∈ l ∧ x ≠ y := by
  simp [sDel, List.mem_filter]

theorem sAdd_of_not_mem [DecidableEq α] (l : List α) (y : α) (h : y ∉ l) :
    sAdd l y = l ++ [y] := by
  simp [sAdd, h]

theorem mem_mdDiscardKey [DecidableEq α] (m : List (α × β)) (k : α) (p : α × β) :
    p ∈ mdDiscardKey m k ↔ p ∈ m ∧ p.1 ≠ k := by
  simp [mdDiscardKey, List.mem_filter]

theorem mem_foldl_mdDiscardKey [DecidableEq α] (ks : List α) (m : List (α × β))
    (p : α × β) :
    p ∈ List.foldl mdDiscardKey m ks ↔ p ∈ m ∧ p.1 ∉ ks := by
  induction ks generalizing m with
  | nil => simp
  | cons k rest ih =>
    simp only [List.foldl_cons, ih, mem_mdDiscardKey, List.mem_cons]
    tauto

theorem mem_mdKeys [DecidableEq α] (m : List (α × β)) (x : α) :
    x ∈ mdKeys m ↔ ∃ v, (x, v) ∈ m := by
  simp only [mdKeys, List.mem_dedup, List.mem_map]
  constructor
  · rintro ⟨⟨a, b⟩, hp, rfl⟩
    exact ⟨b, hp⟩
  · rintro ⟨v, hv⟩
    exact ⟨(x, v), hv, rfl⟩

theorem foldl_mdDiscardKey_mdKeys_self [DecidableEq α] (m : List (α × β)) :
    List.foldl mdDiscardKey m (mdKeys m) = [] := by
  rw [List.eq_nil_iff_forall_not_mem]
  intro p hp
  rw [mem_foldl_mdDiscardKey] at hp
  exact hp.2 ((mem_mdKeys m p.1).2 ⟨p.2, hp.1⟩)

theorem foldl_mdDiscardKey_nil [DecidableEq α] (ks : List α) :
    List.foldl mdDiscardKey ([] : List (α × β)) ks = [] := by
  rw [List.eq_nil_iff_forall_not_mem]
  intro p hp
  rw [mem_foldl_mdDiscardKey] at hp
  exact absurd hp.1 (List.not_mem_nil p)

theorem mdValues_mdDiscardKey_ne [DecidableEq α] (m : List (α × β)) (k k' : α)
    (h : k' ≠ k) : mdValues (mdDiscardKey m k) k' = mdValues m k' := by
  unfold mdValues mdDiscardKey
  rw [List.filter_filter]
  congr 1
  apply List.filter_congr
  intro p _
  by_cases hk' : p.1 = k'
  · simp [hk', h]
  · simp [hk']

theorem mdValues_mdDiscardKey_self [DecidableEq α] (m : List (α × β)) (k : α) :
    mdValues (mdDiscardKey m k) k = [] := by
  rw [mdValues, List.eq_nil_iff_forall_not_mem]
  intro v hv
  rw [List.mem_map] at hv
  obtain ⟨p, hp, _⟩ := hv
  rw [List.mem_filter] at hp
  have h1 := (mem_mdDiscardKey m k p).1 hp.1
  exact h1.2 (by simpa using hp.2)

theorem mdValues_append_pair [DecidableEq α] (m : List (α × β)) (k : α) (v : β) :
    mdValues (m ++ [(k, v)]) k = mdValues m k ++ [v] := by
  simp [mdValues, List.filter_append]

theorem mdValues_foldl_mdPut [DecidableEq α] [DecidableEq β] (addrs : List β)
    (m : List (α × β)) (k : α) (hnd : addrs.Nodup)
    (h : ∀ v ∈ addrs, (k, v) ∉ m) :
    mdValues (List.foldl (fun acc v => mdPut acc k v) m addrs) k =
      mdValues m k ++ addrs := by
  induction addrs generalizing m with
  | nil => simp
  | cons a rest ih =>
    have hna : (k, a) ∉ m := h a (by simp)
    have hput : mdPut m k a = m ++ [(k, a)] := by simp [mdPut, hna]
    rw [List.foldl_cons, hput, ih]
    · rw [mdValues_append_pair]
      simp
    · exact hnd.of_cons
    · intro v hv
      rw [List.mem_append]
      rintro (hm | hp)
      · exact h v (by simp [hv]) hm
      · simp at hp
        exact (List.nodup_cons.1 hnd).1 (hp ▸ hv)

theorem mem_mDel [DecidableEq α] (m : List (α × β)) (k : α) (p : α × β) :
    p ∈ mDel m k ↔ p ∈ m ∧ p.1 ≠ k := by
  simp [mDel, List.mem_filter]

theorem mGet?_mDel_ne [DecidableEq α] (m : List (α × β)) (k k' : α)
    (h : k' ≠ k) : mGet? (mDel m k) k' = mGet? m k' := by
  induction m with
  | nil => rfl
  | cons p rest ih =>
    by_cases hk : p.1 = k
    · have hk' : ¬p.1 = k' := by
        rw [hk]
        exact fun hc => h hc.symm
      simpa [mGet?, mDel, List.filter_cons, List.find?_cons, hk, hk', h,
        Ne.symm h] using ih
    · by_cases hk' : p.1 = k'
      · simp [mGet?, mDel, List.filter_cons, List.find?_cons, hk, hk', h, Ne.symm h]
      · simpa [mGet?, mDel, List.filter_cons, List.find?_cons, hk, hk', h,
          Ne.symm h] using ih

theorem not_mem_mdKeys_foldl [DecidableEq α] (ks : List α) (m : List (α × β))
    (k : α) (h : k ∉ mdKeys m) :
    k ∉ mdKeys (List.foldl mdDiscardKey m ks) := by
  intro hc
  obtain ⟨v, hv⟩ := (mem_mdKeys _ k).1 hc
  rw [mem_foldl_mdDiscardKey] at hv
  exact h ((mem_mdKeys m k).2 ⟨v, hv.1⟩)

theorem mem_mdKeys_foldl_of_mem_list [DecidableEq α] (ks : List α)
    (m : List (α × β)) (k : α) (h : k ∈ ks) :
    k ∉ mdKeys (List.foldl mdDiscardKey m ks) := by
  intro hc
  obtain ⟨v, hv⟩ := (mem_mdKeys _ k).1 hc
  rw [mem_foldl_mdDiscardKey] at hv
  exact hv.2 h

/-! ## State characterisation of the flush stages -/

theorem flushReadyFlag_fst (s : EventSequencer) :
    (flushReadyFlag s).1 = { s with pendingNotReady := false } := by
  cases hb : s.pendingNotReady
  · have he : ({ s with pendingNotReady := false } : EventSequencer) = s := by
      rw [← hb]
    simp [flushReadyFlag, hb, he]
  · simp [flushReadyFlag, hb]

theorem flushConfigUpdate_fst (s : EventSequencer) :
    (flushConfigUpdate s).1 =
      { s with
        config := configAfter s
        pendingGlobalConfig := none
        pendingHostConfig := hostCfgAfter s } := by
  cases hg : s.pendingGlobalConfig with
  | none =>
    simp only [flushConfigUpdate, configAfter, hostCfgAfter, hg]
    rw [← hg]
  | some g =>
    simp [flushConfigUpdate, configAfter, hostCfgAfter, hg]

theorem flushAddedIPSetsLoop_fst (ids : List String) (s : EventSequencer) :
    (flushAddedIPSetsLoop ids s).1 =
      { s with
        pendingAddedIPs := List.foldl mdDiscardKey s.pendingAddedIPs ids
        sentIPSets := List.foldl sAdd s.sentIPSets ids } := by
  induction ids generalizing s with
  | nil => simp [flushAddedIPSetsLoop]
  | cons id rest ih => simp [flushAddedIPSetsLoop, ih]

theorem flushAddedIPSets_fst (s : EventSequencer) :
    (flushAddedIPSets s).1 =
      { s with
        pendingAddedIPSets := []
        pendingAddedIPs := List.foldl mdDiscardKey s.pendingAddedIPs s.pendingAddedIPSets
        sentIPSets := List.foldl sAdd s.sentIPSets s.pendingAddedIPSets } := by
  simp [flushAddedIPSets, flushAddedIPSetsLoop_fst]

theorem flushDeltasLoop_fst (ids : List String) (s : EventSequencer) :
    (flushDeltasLoop ids s).1 =
      { s with
        pendingAddedIPs := List.foldl mdDiscardKey s.pendingAddedIPs ids
        pendingRemovedIPs := List.foldl mdDiscardKey s.pendingRemovedIPs ids } := by
  induction ids generalizing s with
  | nil => simp [flushDeltasLoop]
  | cons id rest ih => simp [flushDeltasLoop, ih]

theorem flushIPSetDeltas_fst (s : EventSequencer) :
    (flushIPSetDeltas s).1 =
      { s with pendingAddedIPs := [], pendingRemovedIPs := [] } := by
  simp only [flushIPSetDeltas, flushDeltasLoop_fst,
    foldl_mdDiscardKey_mdKeys_self, foldl_mdDiscardKey_nil]

theorem flushPolicyUpdatesLoop_fst (items : List (PolicyKey × ParsedRules))
    (s : EventSequencer) :
    (flushPolicyUpdatesLoop items s).1 =
      { s with
        sentPolicies :=
          List.foldl (fun acc kr => sAdd acc kr.1) s.sentPolicies items } := by
  induction items generalizing s with
  | nil => simp [flushPolicyUpdatesLoop]
  | cons kr rest ih =>
    cases kr with
    | mk k r => simp [flushPolicyUpdatesLoop, ih]

theorem flushPolicyUpdates_fst (s : EventSequencer) :
    (flushPolicyUpdates s).1 =
      { s with
        pendingPolicyUpdates := []
        sentPolicies :=
          List.foldl (fun acc kr => sAdd acc kr.1) s.sentPolicies
            s.pendingPolicyUpdates } := by
  simp [flushPolicyUpdates, flushPolicyUpdatesLoop_fst]

theorem flushProfileUpdatesLoop_fst (items : List (ProfileRulesKey × ParsedRules))
    (s : EventSequencer) :
    (flushProfileUpdatesLoop items s).1 =
      { s with
        sentProfiles :=
          List.foldl (fun acc kr => sAdd acc kr.1) s.sentProfiles items } := by
  induction items generalizing s with
  | nil => simp [flushProfileUpdatesLoop]
  | cons kr rest ih =>
    cases kr with
    | mk k r => simp [flushProfileUpdatesLoop, ih]

theorem flushProfileUpdates_fst (s : EventSequencer) :
    (flushProfileUpdates s).1 =
      { s with
        pendingProfileUpdates := []
        sentProfiles :=
          List.foldl (fun acc kr => sAdd acc kr.1) s.sentProfiles
            s.pendingProfileUpdates } := by
  simp [flushProfileUpdates, flushProfileUpdatesLoop_fst]

theorem flushEndpointTierUpdatesLoop_fst (items : List (EndpointKey × EndpointValue))
    (s : EventSequencer) :
    (flushEndpointTierUpdatesLoop items s).1 =
      { s with
        sentEndpoints :=
          List.foldl (fun acc kv => sAdd acc kv.1) s.sentEndpoints items
        pendingEndpointTierUpdates :=
          List.foldl (fun m kv => mDel m kv.1) s.pendingEndpointTierUpdates items } := by
  induction items generalizing s with
  | nil => simp [flushEndpointTierUpdatesLoop]
  | cons kv rest ih =>
    cases kv with
    | mk k v => simp [flushEndpointTierUpdatesLoop, ih]

theorem flushEndpointTierUpdates_fst (s : EventSequencer) :
    (flushEndpointTierUpdates s).1 =
      { s with
        pendingEndpointUpdates := []
        sentEndpoints :=
          List.foldl (fun acc kv => sAdd acc kv.1) s.sentEndpoints
            s.pendingEndpointUpdates
        pendingEndpointTierUpdates :=
          List.foldl (fun m kv => mDel m kv.1) s.pendingEndpointTierUpdates
            s.pendingEndpointUpdates } := by
  simp [flushEndpointTierUpdates, flushEndpointTierUpdatesLoop_fst]

theorem flushEndpointTierDeletesLoop_fst (keys : List EndpointKey)
    (s : EventSequencer) :
    (flushEndpointTierDeletesLoop keys s).1 =
      { s with sentEndpoints := List.foldl sDel s.sentEndpoints keys } := by
  induction keys generalizing s with
  | nil => simp [flushEndpointTierDeletesLoop]
  | cons k rest ih => simp [flushEndpointTierDeletesLoop, ih]

theorem flushEndpointTierDeletes_fst (s : EventSequencer) :
    (flushEndpointTierDeletes s).1 =
      { s with
        pendingEndpointDeletes := []
        sentEndpoints :=
          List.foldl sDel s.sentEndpoints s.pendingEndpointDeletes } := by
  simp [flushEndpointTierDeletes, flushEndpointTierDeletesLoop_fst]

theorem flushProfileDeletesLoop_fst (keys : List ProfileRulesKey)
    (s : EventSequencer) :
    (flushProfileDeletesLoop keys s).1 =
      { s with sentProfiles := List.foldl sDel s.sentProfiles keys } := by
  induction keys generalizing s with
  | nil => simp [flushProfileDeletesLoop]
  | cons k rest ih => simp [flushProfileDeletesLoop, ih]

theorem flushProfileDeletes_fst (s : EventSequencer) :
    (flushProfileDeletes s).1 =
      { s with
        pendingProfileDeletes := []
        sentProfiles :=
          List.foldl sDel s.sentProfiles s.pendingProfileDeletes } := by
  simp [flushProfileDeletes, flushProfileDeletesLoop_fst]

theorem flushPolicyDeletesLoop_fst (keys : List PolicyKey) (s : EventSequencer) :
    (flushPolicyDeletesLoop keys s).1 =
      { s with sentPolicies := List.foldl sDel s.sentPolicies keys } := by
  induction keys generalizing s with
  | nil => simp [flushPolicyDeletesLoop]
  | cons k rest ih => simp [flushPolicyDeletesLoop, ih]

theorem flushPolicyDeletes_fst (s : EventSequencer) :
    (flushPolicyDeletes s).1 =
      { s with
        pendingPolicyDeletes := []
        sentPolicies :=
          List.foldl sDel s.sentPolicies s.pendingPolicyDeletes } := by
  simp [flushPolicyDeletes, flushPolicyDeletesLoop_fst]

theorem flushRemovedIPSetsLoop_fst (ids : List String) (s : EventSequencer) :
    (flushRemovedIPSetsLoop ids s).1 =
      { s with
        pendingRemovedIPs := List.foldl mdDiscardKey s.pendingRemovedIPs ids
        pendingAddedIPs := List.foldl mdDiscardKey s.pendingAddedIPs ids
        sentIPSets := List.foldl sDel s.sentIPSets ids } := by
  induction ids generalizing s with
  | nil => simp [flushRemovedIPSetsLoop]
  | cons id rest ih => simp [flushRemovedIPSetsLoop, ih]

theorem flushRemovedIPSets_fst (s : EventSequencer) :
    (flushRemovedIPSets s).1 =
      { s with
        pendingRemovedIPSets := []
        pendingRemovedIPs :=
          List.foldl mdDiscardKey s.pendingRemovedIPs s.pendingRemovedIPSets
        pendingAddedIPs :=
          List.foldl mdDiscardKey s.pendingAddedIPs s.pendingRemovedIPSets
        sentIPSets := List.foldl sDel s.sentIPSets s.pendingRemovedIPSets } := by
  simp [flushRemovedIPSets, flushRemovedIPSetsLoop_fst]

theorem flushHostIPDeletesLoop_fst (hosts : List String) (s : EventSequencer) :
    (flushHostIPDeletesLoop hosts s).1 =
      { s with sentHostIPs := List.foldl sDel s.sentHostIPs hosts } := by
  induction hosts generalizing s with
  | nil => simp [flushHostIPDeletesLoop]
  | cons h rest ih => simp [flushHostIPDeletesLoop, ih]

theorem flushHostIPDeletes_fst (s : EventSequencer) :
    (flushHostIPDeletes s).1 =
      { s with
        pendingHostIPDeletes := []
        sentHostIPs := List.foldl sDel s.sentHostIPs s.pendingHostIPDeletes } := by
  simp [flushHostIPDeletes, flushHostIPDeletesLoop_fst]

theorem flushHostIPUpdatesLoop_fst (items : List (String × String))
    (s : EventSequencer) :
    (flushHostIPUpdatesLoop items s).1 =
      { s with
        sentHostIPs :=
          List.foldl (fun acc kv => sAdd acc kv.1) s.sentHostIPs items } := by
  induction items generalizing s with
  | nil => simp [flushHostIPUpdatesLoop]
  | cons kv rest ih =>
    cases kv with
    | mk h ip => simp [flushHostIPUpdatesLoop, ih]

theorem flushHostIPUpdates_fst (s : EventSequencer) :
    (flushHostIPUpdates s).1 =
      { s with
        pendingHostIPUpdates := []
        sentHostIPs :=
          List.foldl (fun acc kv => sAdd acc kv.1) s.sentHostIPs
            s.pendingHostIPUpdates } := by
  simp [flushHostIPUpdates, flushHostIPUpdatesLoop_fst]

theorem flushIPPoolDeletesLoop_fst (cidrs : List String) (s : EventSequencer) :
    (flushIPPoolDeletesLoop cidrs s).1 =
      { s with sentIPPools := List.foldl sDel s.sentIPPools cidrs } := by
  induction cidrs generalizing s with
  | nil => simp [flushIPPoolDeletesLoop]
  | cons c rest ih => simp [flushIPPoolDeletesLoop, ih]

theorem flushIPPoolDeletes_fst (s : EventSequencer) :
    (flushIPPoolDeletes s).1 =
      { s with
        pendingIPPoolDeletes := []
        sentIPPools := List.foldl sDel s.sentIPPools s.pendingIPPoolDeletes } := by
  simp [flushIPPoolDeletes, flushIPPoolDeletesLoop_fst]

theorem flushIPPoolUpdatesLoop_fst (items : List (String × IPPool))
    (s : EventSequencer) :
    (flushIPPoolUpdatesLoop items s).1 =
      { s with
        sentIPPools :=
          List.foldl (fun acc kv => sAdd acc kv.1) s.sentIPPools items } := by
  induction items generalizing s with
  | nil => simp [flushIPPoolUpdatesLoop]
  | cons kv rest ih =>
    cases kv with
    | mk c p => simp [flushIPPoolUpdatesLoop, ih]

theorem flushIPPoolUpdates_fst (s : EventSequencer) :
    (flushIPPoolUpdates s).1 =
      { s with
        pendingIPPoolUpdates := []
        sentIPPools :=
          List.foldl (fun acc kv => sAdd acc kv.1) s.sentIPPools
            s.pendingIPPoolUpdates } := by
  simp [flushIPPoolUpdates, flushIPPoolUpdatesLoop_fst]

/-! ## Ranks of the messages emitted by each flush stage -/

theorem flushReadyFlag_rank (s : EventSequencer) :
    ∀ m ∈ (flushReadyFlag s).2, msgRank m = 0 := by
  cases hb : s.pendingNotReady <;> simp [flushReadyFlag, hb, msgRank]

theorem flushConfigUpdate_rank (s : EventSequencer) :
    ∀ m ∈ (flushConfigUpdate s).2, msgRank m = 1 := by
  cases hg : s.pendingGlobalConfig with
  | none => simp [flushConfigUpdate, hg]
  | some g =>
    simp only [flushConfigUpdate, hg]
    split <;> simp [msgRank]

theorem flushAddedIPSetsLoop_rank (ids : List String) (s : EventSequencer) :
    ∀ m ∈ (flushAddedIPSetsLoop ids s).2, msgRank m = 2 := by
  induction ids generalizing s with
  | nil => simp [flushAddedIPSetsLoop]
  | cons id rest ih =>
    simp only [flushAddedIPSetsLoop, List.mem_cons]
    rintro m (rfl | hm)
    · rfl
    · exact ih _ m hm

theorem flushAddedIPSets_rank (s : EventSequencer) :
    ∀ m ∈ (flushAddedIPSets s).2, msgRank m = 2 := by
  intro m hm
  exact flushAddedIPSetsLoop_rank _ _ m hm

theorem flushDeltasLoop_rank (ids : List String) (s : EventSequencer) :
    ∀ m ∈ (flushDeltasLoop ids s).2, msgRank m = 3 := by
  induction ids generalizing s with
  | nil => simp [flushDeltasLoop]
  | cons id rest ih =>
    simp only [flushDeltasLoop, List.mem_cons]
    rintro m (rfl | hm)
    · rfl
    · exact ih _ m hm

theorem flushIPSetDeltas_rank (s : EventSequencer) :
    ∀ m ∈ (flushIPSetDeltas s).2, msgRank m = 3 := by
  intro m hm
  simp only [flushIPSetDeltas, List.mem_append] at hm
  rcases hm with hm | hm
  · exact flushDeltasLoop_rank _ _ m hm
  · exact flushDeltasLoop_rank _ _ m hm

theorem flushPolicyUpdatesLoop_rank (items : List (PolicyKey × ParsedRules))
    (s : EventSequencer) :
    ∀ m ∈ (flushPolicyUpdatesLoop items s).2, msgRank m = 4 := by
  induction items generalizing s with
  | nil => simp [flushPolicyUpdatesLoop]
  | cons kr rest ih =>
    cases kr with
    | mk k r =>
      simp only [flushPolicyUpdatesLoop, List.mem_cons]
      rintro m (rfl | hm)
      · rfl
      · exact ih _ m hm

theorem flushPolicyUpdates_rank (s : EventSequencer) :
    ∀ m ∈ (flushPolicyUpdates s).2, msgRank m = 4 := by
  intro m hm
  exact flushPolicyUpdatesLoop_rank _ _ m hm

theorem flushProfileUpdatesLoop_rank (items : List (ProfileRulesKey × ParsedRules))
    (s : EventSequencer) :
    ∀ m ∈ (flushProfileUpdatesLoop items s).2, msgRank m = 5 := by
  induction items generalizing s with
  | nil => simp [flushProfileUpdatesLoop]
  | cons kr rest ih =>
    cases kr with
    | mk k r =>
      simp only [flushProfileUpdatesLoop, List.mem_cons]
      rintro m (rfl | hm)
      · rfl
      · exact ih _ m hm

theorem flushProfileUpdates_rank (s : EventSequencer) :
    ∀ m ∈ (flushProfileUpdates s).2, msgRank m = 5 := by
  intro m hm
  exact flushProfileUpdatesLoop_rank _ _ m hm

theorem endpointUpdateMsg_rank (key : EndpointKey) (ep : EndpointValue)
    (tiers untrackedTiers : List ProtoTierInfo) (m : Message)
    (h : endpointUpdateMsg key ep tiers untrackedTiers = some m) :
    msgRank m = 6 := by
  cases key <;> cases ep <;>
    simp [endpointUpdateMsg, modelWorkloadEndpointToProtoMsg,
      modelHostEndpointToProtoMsg] at h <;>
    simp [← h, msgRank]

theorem flushEndpointTierUpdatesLoop_rank (items : List (EndpointKey × EndpointValue))
    (s : EventSequencer) :
    ∀ m ∈ (flushEndpointTierUpdatesLoop items s).2, msgRank m = 6 := by
  induction items generalizing s with
  | nil => simp [flushEndpointTierUpdatesLoop]
  | cons kv rest ih =>
    cases kv with
    | mk k v =>
      intro m hm
      simp only [flushEndpointTierUpdatesLoop, List.mem_append] at hm
      rcases hm with hm | hm
      · rcases ho : endpointUpdateMsg k v
          (tierInfoToProtoTierInfo
            ((mGet? s.pendingEndpointTierUpdates k).getD [])).1
          (tierInfoToProtoTierInfo
            ((mGet? s.pendingEndpointTierUpdates k).getD [])).2 with _ | m'
        · simp [ho] at hm
        · simp [ho, Option.toList] at hm
          exact hm ▸ endpointUpdateMsg_rank _ _ _ _ _ ho
      · exact ih _ m hm

theorem flushEndpointTierUpdates_rank (s : EventSequencer) :
    ∀ m ∈ (flushEndpointTierUpdates s).2, msgRank m = 6 := by
  intro m hm
  exact flushEndpointTierUpdatesLoop_rank _ _ m hm

theorem flushEndpointTierDeletesLoop_rank (keys : List EndpointKey)
    (s : EventSequencer) :
    ∀ m ∈ (flushEndpointTierDeletesLoop keys s).2, msgRank m = 7 := by
  induction keys generalizing s with
  | nil => simp [flushEndpointTierDeletesLoop]
  | cons k rest ih =>
    simp only [flushEndpointTierDeletesLoop, List.mem_cons]
    rintro m (rfl | hm)
    · cases k <;> rfl
    · exact ih _ m hm

theorem flushEndpointTierDeletes_rank (s : EventSequencer) :
    ∀ m ∈ (flushEndpointTierDeletes s).2, msgRank m = 7 := by
  intro m hm
  exact flushEndpointTierDeletesLoop_rank _ _ m hm

theorem flushProfileDeletesLoop_rank (keys : List ProfileRulesKey)
    (s : EventSequencer) :
    ∀ m ∈ (flushProfileDeletesLoop keys s).2, msgRank m = 8 := by
  induction keys generalizing s with
  | nil => simp [flushProfileDeletesLoop]
  | cons k rest ih =>
    simp only [flushProfileDeletesLoop, List.mem_cons]
    rintro m (rfl | hm)
    · rfl
    · exact ih _ m hm

theorem flushProfileDeletes_rank (s : EventSequencer) :
    ∀ m ∈ (flushProfileDeletes s).2, msgRank m = 8 := by
  intro m hm
  exact flushProfileDeletesLoop_rank _ _ m hm

theorem flushPolicyDeletesLoop_rank (keys : List PolicyKey) (s : EventSequencer) :
    ∀ m ∈ (flushPolicyDeletesLoop keys s).2, msgRank m = 9 := by
  induction keys generalizing s with
  | nil => simp [flushPolicyDeletesLoop]
  | cons k rest ih =>
    simp only [flushPolicyDeletesLoop, List.mem_cons]
    rintro m (rfl | hm)
    · rfl
    · exact ih _ m hm

theorem flushPolicyDeletes_rank (s : EventSequencer) :
    ∀ m ∈ (flushPolicyDeletes s).2, msgRank m = 9 := by
  intro m hm
  exact flushPolicyDeletesLoop_rank _ _ m hm

theorem flushRemovedIPSetsLoop_rank (ids : List String) (s : EventSequencer) :
    ∀ m ∈ (flushRemovedIPSetsLoop ids s).2, msgRank m = 10 := by
  induction ids generalizing s with
  | nil => simp [flushRemovedIPSetsLoop]
  | cons id rest ih =>
    simp only [flushRemovedIPSetsLoop, List.mem_cons]
    rintro m (rfl | hm)
    · rfl
    · exact ih _ m hm

theorem flushRemovedIPSets_rank (s : EventSequencer) :
    ∀ m ∈ (flushRemovedIPSets s).2, msgRank m = 10 := by
  intro m hm
  exact flushRemovedIPSetsLoop_rank _ _ m hm

theorem flushHostIPDeletesLoop_rank (hosts : List String) (s : EventSequencer) :
    ∀ m ∈ (flushHostIPDeletesLoop hosts s).2, msgRank m = 11 := by
  induction hosts generalizing s with
  | nil => simp [flushHostIPDeletesLoop]
  | cons h rest ih =>
    simp only [flushHostIPDeletesLoop, List.mem_cons]
    rintro m (rfl | hm)
    · rfl
    · exact ih _ m hm

theorem flushHostIPDeletes_rank (s : EventSequencer) :
    ∀ m ∈ (flushHostIPDeletes s).2, msgRank m = 11 := by
  intro m hm
  exact flushHostIPDeletesLoop_rank _ _ m hm

theorem flushHostIPUpdatesLoop_rank (items : List (String × String))
    (s : EventSequencer) :
    ∀ m ∈ (flushHostIPUpdatesLoop items s).2, msgRank m = 12 := by
  induction items generalizing s with
  | nil => simp [flushHostIPUpdatesLoop]
  | cons kv rest ih =>
    cases kv with
    | mk h ip =>
      simp only [flushHostIPUpdatesLoop, List.mem_cons]
      rintro m (rfl | hm)
      · rfl
      · exact ih _ m hm

theorem flushHostIPUpdates_rank (s : EventSequencer) :
    ∀ m ∈ (flushHostIPUpdates s).2, msgRank m = 12 := by
  intro m hm
  exact flushHostIPUpdatesLoop_rank _ _ m hm

theorem flushIPPoolDeletesLoop_rank (cidrs : List String) (s : EventSequencer) :
    ∀ m ∈ (flushIPPoolDeletesLoop cidrs s).2, msgRank m = 13 := by
  induction cidrs generalizing s with
  | nil => simp [flushIPPoolDeletesLoop]
  | cons c rest ih =>
    simp only [flushIPPoolDeletesLoop, List.mem_cons]
    rintro m (rfl | hm)
    · rfl
    · exact ih _ m hm

theorem flushIPPoolDeletes_rank (s : EventSequencer) :
    ∀ m ∈ (flushIPPoolDeletes s).2, msgRank m = 13 := by
  intro m hm
  exact flushIPPoolDeletesLoop_rank _ _ m hm

theorem flushIPPoolUpdatesLoop_rank (items : List (String × IPPool))
    (s : EventSequencer) :
    ∀ m ∈ (flushIPPoolUpdatesLoop items s).2, msgRank m = 14 := by
  induction items generalizing s with
  | nil => simp [flushIPPoolUpdatesLoop]
  | cons kv rest ih =>
    cases kv with
    | mk c p =>
      simp only [flushIPPoolUpdatesLoop, List.mem_cons]
      rintro m (rfl | hm)
      · rfl
      · exact ih _ m hm

theorem flushIPPoolUpdates_rank (s : EventSequencer) :
    ∀ m ∈ (flushIPPoolUpdates s).2, msgRank m = 14 := by
  intro m hm
  exact flushIPPoolUpdatesLoop_rank _ _ m hm

/-! ## Decomposition of the Flush output and the ordering theorem -/

theorem flush_msgs_eq (s : EventSequencer) :
    (Flush s).2 =
      (flushReadyFlag s).2 ++
        ((flushConfigUpdate (flushStage1 s)).2 ++
          ((flushAddedIPSets (flushStage2 s)).2 ++
            ((flushIPSetDeltas (flushStage3 s)).2 ++
              ((flushPolicyUpdates (flushStage4 s)).2 ++
                ((flushProfileUpdates (flushStage5 s)).2 ++
                  ((flushEndpointTierUpdates (flushStage6 s)).2 ++
                    ((flushEndpointTierDeletes (flushStage7 s)).2 ++
                      ((flushProfileDeletes (flushStage8 s)).2 ++
                        ((flushPolicyDeletes (flushStage9 s)).2 ++
                          ((flushRemovedIPSets (flushStage10 s)).2 ++
                            ((flushHostIPDeletes (flushStage11 s)).2 ++
                              ((flushHostIPUpdates (flushStage12 s)).2 ++
                                ((flushIPPoolDeletes (flushStage13 s)).2 ++
                                  (flushIPPoolUpdates (flushStage14 s)).2))))))))))))) := by
  simp only [Flush, flushStage1, flushStage2, flushStage3, flushStage4,
    flushStage5, flushStage6, flushStage7, flushStage8, flushStage9,
    flushStage10, flushStage11, flushStage12, flushStage13, flushStage14,
    List.append_assoc]

theorem flush_fst_eq (s : EventSequencer) :
    (Flush s).1 = (flushIPPoolUpdates (flushStage14 s)).1 := by
  simp only [Flush, flushStage1, flushStage2, flushStage3, flushStage4,
    flushStage5, flushStage6, flushStage7, flushStage8, flushStage9,
    flushStage10, flushStage11, flushStage12, flushStage13, flushStage14]

theorem rank_blocks_base (k : Nat) (msgs : List Message)
    (h : ∀ m ∈ msgs, msgRank m = k) :
    (msgs.map msgRank).Pairwise (· ≤ ·) ∧ ∀ m ∈ msgs, k ≤ msgRank m := by
  constructor
  · rw [List.pairwise_map]
    apply List.pairwise_of_forall_mem_list
    intro a ha b hb
    rw [h a ha, h b hb]
  · exact fun m hm => (h m hm).ge

theorem rank_blocks_cons (kj knext : Nat) (hk : kj ≤ knext)
    (msgs1 msgs2 : List Message)
    (h1 : ∀ m ∈ msgs1, msgRank m = kj)
    (h2 : (msgs2.map msgRank).Pairwise (· ≤ ·) ∧ ∀ m ∈ msgs2, knext ≤ msgRank m) :
    ((msgs1 ++ msgs2).map msgRank).Pairwise (· ≤ ·) ∧
      ∀ m ∈ msgs1 ++ msgs2, kj ≤ msgRank m := by
  constructor
  · rw [List.map_append, List.pairwise_append]
    refine ⟨?_, h2.1, ?_⟩
    · rw [List.pairwise_map]
      apply List.pairwise_of_forall_mem_list
      intro a ha b hb
      rw [h1 a ha, h1 b hb]
    · intro a ha b hb
      rw [List.mem_map] at ha hb
      obtain ⟨ma, hma, rfl⟩ := ha
      obtain ⟨mb, hmb, rfl⟩ := hb
      rw [h1 ma hma]
      exact le_trans hk (h2.2 mb hmb)
  · intro m hm
    rcases List.mem_append.1 hm with h | h
    · exact (h1 m h).ge
    · exact le_trans hk (h2.2 m h)

/-- C1: for every sequencer state, the messages emitted by a single
Flush appear in the dependency order of the public contract: the
datastore-not-ready signal, then the config update, IP set adds
(IPSetUpdate with full membership), IP set delta updates, policy updates,
profile updates, endpoint updates, endpoint removes, profile removes,
policy removes, IP set removes, host-IP removes then updates, and IP-pool
removes then updates — the rank sequence of the output is monotone. -/
theorem flush_messages_in_contract_order (s : EventSequencer) :
    ((Flush s).2.map msgRank).Pairwise (· ≤ ·) := by
  rw [flush_msgs_eq]
  exact (rank_blocks_cons 0 1 (by omega) _ _ (flushReadyFlag_rank s)
    (rank_blocks_cons 1 2 (by omega) _ _ (flushConfigUpdate_rank _)
      (rank_blocks_cons 2 3 (by omega) _ _ (flushAddedIPSets_rank _)
        (rank_blocks_cons 3 4 (by omega) _ _ (flushIPSetDeltas_rank _)
          (rank_blocks_cons 4 5 (by omega) _ _ (flushPolicyUpdates_rank _)
            (rank_blocks_cons 5 6 (by omega) _ _ (flushProfileUpdates_rank _)
              (rank_blocks_cons 6 7 (by omega) _ _ (flushEndpointTierUpdates_rank _)
                (rank_blocks_cons 7 8 (by omega) _ _ (flushEndpointTierDeletes_rank _)
                  (rank_blocks_cons 8 9 (by omega) _ _ (flushProfileDeletes_rank _)
                    (rank_blocks_cons 9 10 (by omega) _ _ (flushPolicyDeletes_rank _)
                      (rank_blocks_cons 10 11 (by omega) _ _ (flushRemovedIPSets_rank _)
                        (rank_blocks_cons 11 12 (by omega) _ _ (flushHostIPDeletes_rank _)
                          (rank_blocks_cons 12 13 (by omega) _ _ (flushHostIPUpdates_rank _)
                            (rank_blocks_cons 13 14 (by omega) _ _ (flushIPPoolDeletes_rank _)
                              (rank_blocks_base 14 _
                                (flushIPPoolUpdates_rank _)))))))))))))))).1

/-! ## A flush drains every message-producing buffer -/

theorem flush_drains (s : EventSequencer) : Drained (Flush s).1 := by
  rw [flush_fst_eq]
  simp only [flushIPPoolUpdates_fst, flushStage14, flushIPPoolDeletes_fst,
    flushStage13, flushHostIPUpdates_fst, flushStage12, flushHostIPDeletes_fst,
    flushStage11, flushRemovedIPSets_fst, flushStage10, flushPolicyDeletes_fst,
    flushStage9, flushProfileDeletes_fst, flushStage8, flushEndpointTierDeletes_fst,
    flushStage7, flushEndpointTierUpdates_fst, flushStage6, flushProfileUpdates_fst,
    flushStage5, flushPolicyUpdates_fst, flushStage4, flushIPSetDeltas_fst,
    flushStage3, flushAddedIPSets_fst, flushStage2, flushConfigUpdate_fst,
    flushStage1, flushReadyFlag_fst]
  simp [Drained, foldl_mdDiscardKey_nil]

theorem flush_msgs_of_drained (s : EventSequencer) (h : Drained s) :
    (Flush s).2 = [] := by
  obtain ⟨h1, h2, h3, h4, h5, h6, h7, h8, h9, h10, h11, h12, h13, h14, h15, h16⟩ := h
  rw [flush_msgs_eq]
  simp only [flushStage14, flushStage13, flushStage12, flushStage11, flushStage10,
    flushStage9, flushStage8, flushStage7, flushStage6, flushStage5, flushStage4,
    flushStage3, flushStage2, flushStage1,
    flushReadyFlag_fst, flushConfigUpdate_fst, flushAddedIPSets_fst,
    flushIPSetDeltas_fst, flushPolicyUpdates_fst, flushProfileUpdates_fst,
    flushEndpointTierUpdates_fst, flushEndpointTierDeletes_fst,
    flushProfileDeletes_fst, flushPolicyDeletes_fst, flushRemovedIPSets_fst,
    flushHostIPDeletes_fst, flushHostIPUpdates_fst, flushIPPoolDeletes_fst]
  simp [flushReadyFlag, flushConfigUpdate, flushAddedIPSets, flushAddedIPSetsLoop,
    flushIPSetDeltas, flushDeltasLoop, flushPolicyUpdates, flushPolicyUpdatesLoop,
    flushProfileUpdates, flushProfileUpdatesLoop, flushEndpointTierUpdates,
    flushEndpointTierUpdatesLoop, flushEndpointTierDeletes,
    flushEndpointTierDeletesLoop, flushProfileDeletes, flushProfileDeletesLoop,
    flushPolicyDeletes, flushPolicyDeletesLoop, flushRemovedIPSets,
    flushRemovedIPSetsLoop, flushHostIPDeletes, flushHostIPDeletesLoop,
    flushHostIPUpdates, flushHostIPUpdatesLoop, flushIPPoolDeletes,
    flushIPPoolDeletesLoop, flushIPPoolUpdates, flushIPPoolUpdatesLoop,
    mdKeys, h1, h2, h3, h4, h5, h6, h7, h8, h9, h10, h11, h12, h13, h14, h15, h16,
    foldl_mdDiscardKey_nil]

/-- C6: a no-op flush is silent — for every sequencer state, flushing and
then flushing again with no intervening input emits no message on the
second Flush (every Flush drains all pending buffers). -/
theorem flush_idempotent_no_output (s : EventSequencer) :
    (Flush (Flush s).1).2 = [] :=
  flush_msgs_of_drained _ (flush_drains s)

/-! ## C3: the fatal consistency checks -/

/-- C3: OnIPSetAdded faults (panics) exactly when the set is already in
the sent set with no pending removal, and OnIPSetRemoved, OnIPAdded and
OnIPRemoved fault exactly when the set is neither sent nor pending-added
(the unknown-IP-set cases). -/
theorem ipset_consistency_checks (s : EventSequencer) (setID addr : String) :
    (OnIPSetAdded s setID = none ↔
      setID ∈ s.sentIPSets ∧ setID ∉ s.pendingRemovedIPSets) ∧
    (OnIPSetRemoved s setID = none ↔
      setID ∉ s.sentIPSets ∧ setID ∉ s.pendingAddedIPSets) ∧
    (OnIPAdded s setID addr = none ↔
      setID ∉ s.sentIPSets ∧ setID ∉ s.pendingAddedIPSets) ∧
    (OnIPRemoved s setID addr = none ↔
      setID ∉ s.sentIPSets ∧ setID ∉ s.pendingAddedIPSets) := by
  refine ⟨?_, ?_, ?_, ?_⟩
  · unfold OnIPSetAdded
    split <;> simp_all
  · unfold OnIPSetRemoved
    split <;> simp_all
  · unfold OnIPAdded
    split
    · simp_all
    · split <;> simp_all
  · unfold OnIPRemoved
    split
    · simp_all
    · split <;> simp_all

/-! ## Which messages mention an IP set, and where they can come from -/

theorem mentionsIPSet_rank (id : String) (m : Message)
    (h : mentionsIPSet id m = true) :
    msgRank m = 2 ∨ msgRank m = 3 ∨ msgRank m = 10 := by
  cases m <;> simp [mentionsIPSet, msgRank] at h ⊢

theorem flushAddedIPSetsLoop_mention (ids : List String) (s : EventSequencer)
    (id : String) :
    ∀ m ∈ (flushAddedIPSetsLoop ids s).2, mentionsIPSet id m = true → id ∈ ids := by
  induction ids generalizing s with
  | nil => simp [flushAddedIPSetsLoop]
  | cons x rest ih =>
    simp only [flushAddedIPSetsLoop, List.mem_cons]
    rintro m (rfl | hm) hmen
    · simp [mentionsIPSet] at hmen
      exact Or.inl hmen.symm
    · exact Or.inr (ih _ m hm hmen)

theorem flushDeltasLoop_mention (ids : List String) (s : EventSequencer)
    (id : String) :
    ∀ m ∈ (flushDeltasLoop ids s).2, mentionsIPSet id m = true → id ∈ ids := by
  induction ids generalizing s with
  | nil => simp [flushDeltasLoop]
  | cons x rest ih =>
    simp only [flushDeltasLoop, List.mem_cons]
    rintro m (rfl | hm) hmen
    · simp [mentionsIPSet] at hmen
      exact Or.inl hmen.symm
    · exact Or.inr (ih _ m hm hmen)

theorem flushRemovedIPSetsLoop_mention (ids : List String) (s : EventSequencer)
    (id : String) :
    ∀ m ∈ (flushRemovedIPSetsLoop ids s).2, mentionsIPSet id m = true →
      id ∈ ids := by
  induction ids generalizing s with
  | nil => simp [flushRemovedIPSetsLoop]
  | cons x rest ih =>
    simp only [flushRemovedIPSetsLoop, List.mem_cons]
    rintro m (rfl | hm) hmen
    · simp [mentionsIPSet] at hmen
      exact Or.inl hmen.symm
    · exact Or.inr (ih _ m hm hmen)

theorem flushAddedIPSets_mention (s : EventSequencer) (id : String) :
    ∀ m ∈ (flushAddedIPSets s).2, mentionsIPSet id m = true →
      id ∈ s.pendingAddedIPSets := by
  intro m hm h
  unfold flushAddedIPSets at hm
  exact flushAddedIPSetsLoop_mention _ _ id m hm h

theorem flushIPSetDeltas_mention (s : EventSequencer) (id : String) :
    ∀ m ∈ (flushIPSetDeltas s).2, mentionsIPSet id m = true →
      id ∈ mdKeys s.pendingRemovedIPs ∨ id ∈ mdKeys s.pendingAddedIPs := by
  intro m hm h
  unfold flushIPSetDeltas at hm
  simp only [List.mem_append] at hm
  rcases hm with hm | hm
  · exact Or.inl (flushDeltasLoop_mention _ _ id m hm h)
  · have hid := flushDeltasLoop_mention _ _ id m hm h
    simp only [flushDeltasLoop_fst] at hid
    right
    by_contra hno
    exact not_mem_mdKeys_foldl _ _ _ hno hid

theorem flushRemovedIPSets_mention (s : EventSequencer) (id : String) :
    ∀ m ∈ (flushRemovedIPSets s).2, mentionsIPSet id m = true →
      id ∈ s.pendingRemovedIPSets := by
  intro m hm h
  unfold flushRemovedIPSets at hm
  exact flushRemovedIPSetsLoop_mention _ _ id m hm h

/-! ## Which messages mention an endpoint, and where they can come from -/

theorem mentionsEndpoint_rank (k : EndpointKey) (m : Message)
    (h : mentionsEndpoint k m = true) :
    msgRank m = 6 ∨ msgRank m = 7 := by
  cases m <;> cases k <;> simp [mentionsEndpoint, msgRank] at h ⊢

theorem endpointUpdateMsg_mention (key : EndpointKey) (ep : EndpointValue)
    (tiers untrackedTiers : List ProtoTierInfo) (m : Message) (k : EndpointKey)
    (h : endpointUpdateMsg key ep tiers untrackedTiers = some m)
    (hm : mentionsEndpoint k m = true) : epIdMatches k key = true := by
  cases key <;> cases ep <;>
    simp [endpointUpdateMsg, modelWorkloadEndpointToProtoMsg,
      modelHostEndpointToProtoMsg] at h
  · subst h
    cases k <;> simp [mentionsEndpoint, epIdMatches] at hm ⊢
    exact hm
  · subst h
    cases k <;> simp [mentionsEndpoint, epIdMatches] at hm ⊢
    exact hm

theorem flushEndpointTierUpdatesLoop_mention
    (items : List (EndpointKey × EndpointValue)) (s : EventSequencer)
    (k : EndpointKey) :
    ∀ m ∈ (flushEndpointTierUpdatesLoop items s).2, mentionsEndpoint k m = true →
      ∃ kv ∈ items, epIdMatches k kv.1 = true := by
  induction items generalizing s with
  | nil => simp [flushEndpointTierUpdatesLoop]
  | cons kv rest ih =>
    cases kv with
    | mk key v =>
      intro m hm hmen
      simp only [flushEndpointTierUpdatesLoop, List.mem_append] at hm
      rcases hm with hm | hm
      · rcases ho : endpointUpdateMsg key v
            (tierInfoToProtoTierInfo
              ((mGet? s.pendingEndpointTierUpdates key).getD [])).1
            (tierInfoToProtoTierInfo
              ((mGet? s.pendingEndpointTierUpdates key).getD [])).2 with _ | m'
        · simp [ho] at hm
        · simp [ho, Option.toList] at hm
          subst hm
          exact ⟨(key, v), by simp, endpointUpdateMsg_mention _ _ _ _ _ _ ho hmen⟩
      · obtain ⟨kv', hkv', hmatch⟩ := ih _ m hm hmen
        exact ⟨kv', by simp [hkv'], hmatch⟩

theorem flushEndpointTierUpdates_mention (s : EventSequencer) (k : EndpointKey) :
    ∀ m ∈ (flushEndpointTierUpdates s).2, mentionsEndpoint k m = true →
      ∃ kv ∈ s.pendingEndpointUpdates, epIdMatches k kv.1 = true := by
  intro m hm h
  unfold flushEndpointTierUpdates at hm
  exact flushEndpointTierUpdatesLoop_mention _ _ k m hm h

theorem flushEndpointTierDeletesLoop_mention (keys : List EndpointKey)
    (s : EventSequencer) (k : EndpointKey) :
    ∀ m ∈ (flushEndpointTierDeletesLoop keys s).2, mentionsEndpoint k m = true →
      ∃ x ∈ keys, epIdMatches k x = true := by
  induction keys generalizing s with
  | nil => simp [flushEndpointTierDeletesLoop]
  | cons key rest ih =>
    simp only [flushEndpointTierDeletesLoop, List.mem_cons]
    rintro m (rfl | hm) hmen
    · refine ⟨key, Or.inl rfl, ?_⟩
      cases key <;> cases k <;>
        simp [endpointRemoveMsg, mentionsEndpoint, epIdMatches] at hmen ⊢ <;>
        exact hmen
    · obtain ⟨x, hx, hmatch⟩ := ih _ m hm hmen
      exact ⟨x, Or.inr hx, hmatch⟩

theorem flushEndpointTierDeletes_mention (s : EventSequencer) (k : EndpointKey) :
    ∀ m ∈ (flushEndpointTierDeletes s).2, mentionsEndpoint k m = true →
      ∃ x ∈ s.pendingEndpointDeletes, epIdMatches k x = true := by
  intro m hm h
  unfold flushEndpointTierDeletes at hm
  exact flushEndpointTierDeletesLoop_mention _ _ k m hm h


/-! ## Stagewise equations and the projections the masters need

Each flushStageN is rewritten only one stage at a time, which keeps the
terms small. -/

theorem flushStage1_eq (s : EventSequencer) :
    flushStage1 s = { s with pendingNotReady := false } :=
  flushReadyFlag_fst s

theorem flushStage2_eq (s : EventSequencer) :
    flushStage2 s =
      { flushStage1 s with
        config := configAfter (flushStage1 s)
        pendingGlobalConfig := none
        pendingHostConfig := hostCfgAfter (flushStage1 s) } :=
  flushConfigUpdate_fst _

theorem flushStage3_eq (s : EventSequencer) :
    flushStage3 s =
      { flushStage2 s with
        pendingAddedIPSets := []
        pendingAddedIPs :=
          List.foldl mdDiscardKey (flushStage2 s).pendingAddedIPs
            (flushStage2 s).pendingAddedIPSets
        sentIPSets :=
          List.foldl sAdd (flushStage2 s).sentIPSets
            (flushStage2 s).pendingAddedIPSets } :=
  flushAddedIPSets_fst _

theorem flushStage4_eq (s : EventSequencer) :
    flushStage4 s =
      { flushStage3 s with pendingAddedIPs := [], pendingRemovedIPs := [] } :=
  flushIPSetDeltas_fst _

theorem flushStage5_eq (s : EventSequencer) :
    flushStage5 s =
      { flushStage4 s with
        pendingPolicyUpdates := []
        sentPolicies :=
          List.foldl (fun acc kr => sAdd acc kr.1) (flushStage4 s).sentPolicies
            (flushStage4 s).pendingPolicyUpdates } :=
  flushPolicyUpdates_fst _

theorem flushStage6_eq (s : EventSequencer) :
    flushStage6 s =
      { flushStage5 s with
        pendingProfileUpdates := []
        sentProfiles :=
          List.foldl (fun acc kr => sAdd acc kr.1) (flushStage5 s).sentProfiles
            (flushStage5 s).pendingProfileUpdates } :=
  flushProfileUpdates_fst _

theorem flushStage7_eq (s : EventSequencer) :
    flushStage7 s =
      { flushStage6 s with
        pendingEndpointUpdates := []
        sentEndpoints :=
          List.foldl (fun acc kv => sAdd acc kv.1) (flushStage6 s).sentEndpoints
            (flushStage6 s).pendingEndpointUpdates
        pendingEndpointTierUpdates :=
          List.foldl (fun m kv => mDel m kv.1)
            (flushStage6 s).pendingEndpointTierUpdates
            (flushStage6 s).pendingEndpointUpdates } :=
  flushEndpointTierUpdates_fst _

theorem flushStage8_eq (s : EventSequencer) :
    flushStage8 s =
      { flushStage7 s with
        pendingEndpointDeletes := []
        sentEndpoints :=
          List.foldl sDel (flushStage7 s).sentEndpoints
            (flushStage7 s).pendingEndpointDeletes } :=
  flushEndpointTierDeletes_fst _

theorem flushStage9_eq (s : EventSequencer) :
    flushStage9 s =
      { flushStage8 s with
        pendingProfileDeletes := []
        sentProfiles :=
          List.foldl sDel (flushStage8 s).sentProfiles
            (flushStage8 s).pendingProfileDeletes } :=
  flushProfileDeletes_fst _

theorem flushStage10_eq (s : EventSequencer) :
    flushStage10 s =
      { flushStage9 s with
        pendingPolicyDeletes := []
        sentPolicies :=
          List.foldl sDel (flushStage9 s).sentPolicies
            (flushStage9 s).pendingPolicyDeletes } :=
  flushPolicyDeletes_fst _

theorem flushStage2_pendingAddedIPSets (s : EventSequencer) :
    (flushStage2 s).pendingAddedIPSets = s.pendingAddedIPSets := by
  have h2 : (flushStage2 s).pendingAddedIPSets =
      (flushStage1 s).pendingAddedIPSets := by
    rw [flushStage2_eq]
  have h1 : (flushStage1 s).pendingAddedIPSets = s.pendingAddedIPSets := by
    rw [flushStage1_eq]
  rw [h2, h1]

theorem flushStage2_pendingAddedIPs (s : EventSequencer) :
    (flushStage2 s).pendingAddedIPs = s.pendingAddedIPs := by
  have h2 : (flushStage2 s).pendingAddedIPs = (flushStage1 s).pendingAddedIPs := by
    rw [flushStage2_eq]
  have h1 : (flushStage1 s).pendingAddedIPs = s.pendingAddedIPs := by
    rw [flushStage1_eq]
  rw [h2, h1]

theorem flushStage2_pendingRemovedIPs (s : EventSequencer) :
    (flushStage2 s).pendingRemovedIPs = s.pendingRemovedIPs := by
  have h2 : (flushStage2 s).pendingRemovedIPs =
      (flushStage1 s).pendingRemovedIPs := by
    rw [flushStage2_eq]
  have h1 : (flushStage1 s).pendingRemovedIPs = s.pendingRemovedIPs := by
    rw [flushStage1_eq]
  rw [h2, h1]

theorem flushStage3_pendingRemovedIPs (s : EventSequencer) :
    (flushStage3 s).pendingRemovedIPs = s.pendingRemovedIPs := by
  have h3 : (flushStage3 s).pendingRemovedIPs =
      (flushStage2 s).pendingRemovedIPs := by
    rw [flushStage3_eq]
  rw [h3, flushStage2_pendingRemovedIPs]

theorem flushStage3_pendingAddedIPs (s : EventSequencer) :
    (flushStage3 s).pendingAddedIPs =
      List.foldl mdDiscardKey s.pendingAddedIPs s.pendingAddedIPSets := by
  have h3 : (flushStage3 s).pendingAddedIPs =
      List.foldl mdDiscardKey (flushStage2 s).pendingAddedIPs
        (flushStage2 s).pendingAddedIPSets := by
    rw [flushStage3_eq]
  rw [h3, flushStage2_pendingAddedIPs, flushStage2_pendingAddedIPSets]

theorem flushStage10_pendingRemovedIPSets (s : EventSequencer) :
    (flushStage10 s).pendingRemovedIPSets = s.pendingRemovedIPSets := by
  have h10 : (flushStage10 s).pendingRemovedIPSets =
      (flushStage9 s).pendingRemovedIPSets := by
    rw [flushStage10_eq]
  have h9 : (flushStage9 s).pendingRemovedIPSets =
      (flushStage8 s).pendingRemovedIPSets := by
    rw [flushStage9_eq]
  have h8 : (flushStage8 s).pendingRemovedIPSets =
      (flushStage7 s).pendingRemovedIPSets := by
    rw [flushStage8_eq]
  have h7 : (flushStage7 s).pendingRemovedIPSets =
      (flushStage6 s).pendingRemovedIPSets := by
    rw [flushStage7_eq]
  have h6 : (flushStage6 s).pendingRemovedIPSets =
      (flushStage5 s).pendingRemovedIPSets := by
    rw [flushStage6_eq]
  have h5 : (flushStage5 s).pendingRemovedIPSets =
      (flushStage4 s).pendingRemovedIPSets := by
    rw [flushStage5_eq]
  have h4 : (flushStage4 s).pendingRemovedIPSets =
      (flushStage3 s).pendingRemovedIPSets := by
    rw [flushStage4_eq]
  have h3 : (flushStage3 s).pendingRemovedIPSets =
      (flushStage2 s).pendingRemovedIPSets := by
    rw [flushStage3_eq]
  have h2 : (flushStage2 s).pendingRemovedIPSets =
      (flushStage1 s).pendingRemovedIPSets := by
    rw [flushStage2_eq]
  have h1 : (flushStage1 s).pendingRemovedIPSets = s.pendingRemovedIPSets := by
    rw [flushStage1_eq]
  rw [h10, h9, h8, h7, h6, h5, h4, h3, h2, h1]

theorem flushStage6_pendingEndpointUpdates (s : EventSequencer) :
    (flushStage6 s).pendingEndpointUpdates = s.pendingEndpointUpdates := by
  have h6 : (flushStage6 s).pendingEndpointUpdates =
      (flushStage5 s).pendingEndpointUpdates := by
    rw [flushStage6_eq]
  have h5 : (flushStage5 s).pendingEndpointUpdates =
      (flushStage4 s).pendingEndpointUpdates := by
    rw [flushStage5_eq]
  have h4 : (flushStage4 s).pendingEndpointUpdates =
      (flushStage3 s).pendingEndpointUpdates := by
    rw [flushStage4_eq]
  have h3 : (flushStage3 s).pendingEndpointUpdates =
      (flushStage2 s).pendingEndpointUpdates := by
    rw [flushStage3_eq]
  have h2 : (flushStage2 s).pendingEndpointUpdates =
      (flushStage1 s).pendingEndpointUpdates := by
    rw [flushStage2_eq]
  have h1 : (flushStage1 s).pendingEndpointUpdates =
      s.pendingEndpointUpdates := by
    rw [flushStage1_eq]
  rw [h6, h5, h4, h3, h2, h1]

theorem flushStage7_pendingEndpointDeletes (s : EventSequencer) :
    (flushStage7 s).pendingEndpointDeletes = s.pendingEndpointDeletes := by
  have h7 : (flushStage7 s).pendingEndpointDeletes =
      (flushStage6 s).pendingEndpointDeletes := by
    rw [flushStage7_eq]
  have h6 : (flushStage6 s).pendingEndpointDeletes =
      (flushStage5 s).pendingEndpointDeletes := by
    rw [flushStage6_eq]
  have h5 : (flushStage5 s).pendingEndpointDeletes =
      (flushStage4 s).pendingEndpointDeletes := by
    rw [flushStage5_eq]
  have h4 : (flushStage4 s).pendingEndpointDeletes =
      (flushStage3 s).pendingEndpointDeletes := by
    rw [flushStage4_eq]
  have h3 : (flushStage3 s).pendingEndpointDeletes =
      (flushStage2 s).pendingEndpointDeletes := by
    rw [flushStage3_eq]
  have h2 : (flushStage2 s).pendingEndpointDeletes =
      (flushStage1 s).pendingEndpointDeletes := by
    rw [flushStage2_eq]
  have h1 : (flushStage1 s).pendingEndpointDeletes =
      s.pendingEndpointDeletes := by
    rw [flushStage1_eq]
  rw [h7, h6, h5, h4, h3, h2, h1]

/-- If a set id is in none of the pending IP-set buffers, a Flush emits
no message mentioning it. -/
theorem flush_no_ipset_mention (s : EventSequencer) (id : String)
    (hA : id ∉ s.pendingAddedIPSets) (hR : id ∉ s.pendingRemovedIPSets)
    (hAk : id ∉ mdKeys s.pendingAddedIPs) (hRk : id ∉ mdKeys s.pendingRemovedIPs) :
    ∀ m ∈ (Flush s).2, mentionsIPSet id m = false := by
  intro m hm
  by_contra hc
  rw [Bool.not_eq_false] at hc
  have hrk := mentionsIPSet_rank id m hc
  rw [flush_msgs_eq] at hm
  simp only [List.mem_append] at hm
  rcases hm with hm | hm | hm | hm | hm | hm | hm | hm | hm | hm | hm | hm | hm | hm | hm
  · have := flushReadyFlag_rank s m hm
    omega
  · have := flushConfigUpdate_rank _ m hm
    omega
  · have hid := flushAddedIPSets_mention _ id m hm hc
    rw [flushStage2_pendingAddedIPSets] at hid
    exact hA hid
  · have hid := flushIPSetDeltas_mention _ id m hm hc
    rw [flushStage3_pendingRemovedIPs, flushStage3_pendingAddedIPs] at hid
    rcases hid with hid | hid
    · exact hRk hid
    · exact not_mem_mdKeys_foldl _ _ _ hAk hid
  · have := flushPolicyUpdates_rank _ m hm
    omega
  · have := flushProfileUpdates_rank _ m hm
    omega
  · have := flushEndpointTierUpdates_rank _ m hm
    omega
  · have := flushEndpointTierDeletes_rank _ m hm
    omega
  · have := flushProfileDeletes_rank _ m hm
    omega
  · have := flushPolicyDeletes_rank _ m hm
    omega
  · have hid := flushRemovedIPSets_mention _ id m hm hc
    rw [flushStage10_pendingRemovedIPSets] at hid
    exact hR hid
  · have := flushHostIPDeletes_rank _ m hm
    omega
  · have := flushHostIPUpdates_rank _ m hm
    omega
  · have := flushIPPoolDeletes_rank _ m hm
    omega
  · have := flushIPPoolUpdates_rank _ m hm
    omega

/-- If no pending endpoint entry shares the key's proto identifier, a
Flush emits no message mentioning the endpoint. -/
theorem flush_no_endpoint_mention (s : EventSequencer) (k : EndpointKey)
    (hU : ∀ kv ∈ s.pendingEndpointUpdates, epIdMatches k kv.1 = false)
    (hD : ∀ x ∈ s.pendingEndpointDeletes, epIdMatches k x = false) :
    ∀ m ∈ (Flush s).2, mentionsEndpoint k m = false := by
  intro m hm
  by_contra hc
  rw [Bool.not_eq_false] at hc
  have hrk := mentionsEndpoint_rank k m hc
  rw [flush_msgs_eq] at hm
  simp only [List.mem_append] at hm
  rcases hm with hm | hm | hm | hm | hm | hm | hm | hm | hm | hm | hm | hm | hm | hm | hm
  · have := flushReadyFlag_rank s m hm
    omega
  · have := flushConfigUpdate_rank _ m hm
    omega
  · have := flushAddedIPSets_rank _ m hm
    omega
  · have := flushIPSetDeltas_rank _ m hm
    omega
  · have := flushPolicyUpdates_rank _ m hm
    omega
  · have := flushProfileUpdates_rank _ m hm
    omega
  · obtain ⟨kv, hkv, hmatch⟩ := flushEndpointTierUpdates_mention _ k m hm hc
    rw [flushStage6_pendingEndpointUpdates] at hkv
    rw [hU kv hkv] at hmatch
    exact Bool.false_ne_true hmatch
  · obtain ⟨x, hx, hmatch⟩ := flushEndpointTierDeletes_mention _ k m hm hc
    rw [flushStage7_pendingEndpointDeletes] at hx
    rw [hD x hx] at hmatch
    exact Bool.false_ne_true hmatch
  · have := flushProfileDeletes_rank _ m hm
    omega
  · have := flushPolicyDeletes_rank _ m hm
    omega
  · have := flushRemovedIPSets_rank _ m hm
    omega
  · have := flushHostIPDeletes_rank _ m hm
    omega
  · have := flushHostIPUpdates_rank _ m hm
    omega
  · have := flushIPPoolDeletes_rank _ m hm
    omega
  · have := flushIPPoolUpdates_rank _ m hm
    omega

/-! ## Additional map lemmas for the cancellation claims -/

theorem not_mem_mdKeys_mdDiscardKey [DecidableEq α] (m : List (α × β)) (k : α) :
    k ∉ mdKeys (mdDiscardKey m k) := by
  intro h
  obtain ⟨v, hv⟩ := (mem_mdKeys _ k).1 h
  exact ((mem_mdDiscardKey m k _).1 hv).2 rfl

theorem mGet?_mDel_self [DecidableEq α] (m : List (α × β)) (k : α) :
    mGet? (mDel m k) k = none := by
  unfold mGet? mDel
  cases hf : List.find? (fun p => decide (p.1 = k))
      (List.filter (fun p => decide (p.1 ≠ k)) m) with
  | none => simp [hf]
  | some p =>
    have hp := List.find?_some hf
    have hmem := List.mem_of_find?_eq_some hf
    rw [List.mem_filter] at hmem
    simp at hp hmem
    exact absurd hp hmem.2

/-! ## C2: cancellation before flush -/

/-- C2: (i) removing an IP set that is only pending-added and was never
sent erases the pending add, so the next Flush emits nothing about that
set; (ii) adding an IP that is pending-removed cancels the removal
instead of queueing an add, leaving every other buffer unchanged;
(iii) a nil endpoint update for a key never sent downstream erases the
pending update and tier entries, so the next Flush emits nothing about
that endpoint.  The subset hypotheses are the reachable-state invariants
that pending deletions only cover sent objects; the epIdMatches
hypotheses say no distinct pending key shares the endpoint's proto
identifier (proto endpoint identifiers omit the hostname). -/
theorem cancellation_before_flush (s : EventSequencer) (id addr : String)
    (k : EndpointKey) :
    (id ∈ s.pendingAddedIPSets → id ∉ s.sentIPSets →
      (∀ x ∈ s.pendingRemovedIPSets, x ∈ s.sentIPSets) →
      ∃ s1, OnIPSetRemoved s id = some s1 ∧
        ∀ m ∈ (Flush s1).2, mentionsIPSet id m = false) ∧
    ((id, addr) ∈ s.pendingRemovedIPs →
      (id ∈ s.sentIPSets ∨ id ∈ s.pendingAddedIPSets) →
      OnIPAdded s id addr =
        some { s with
          pendingRemovedIPs := mdDiscard s.pendingRemovedIPs id addr }) ∧
    (k ∉ s.sentEndpoints →
      (∀ x ∈ s.pendingEndpointDeletes, x ∈ s.sentEndpoints) →
      (∀ kv ∈ s.pendingEndpointUpdates, epIdMatches k kv.1 = true → kv.1 = k) →
      (∀ x ∈ s.pendingEndpointDeletes, epIdMatches k x = true → x = k) →
      mGet? (OnEndpointTierUpdate s k none []).pendingEndpointUpdates k = none ∧
      mGet? (OnEndpointTierUpdate s k none []).pendingEndpointTierUpdates k = none ∧
      ∀ m ∈ (Flush (OnEndpointTierUpdate s k none [])).2,
        mentionsEndpoint k m = false) := by
  refine ⟨?_, ?_, ?_⟩
  · intro hadd hnotsent hsub
    have hcond : ¬(id ∉ s.sentIPSets ∧ id ∉ s.pendingAddedIPSets) :=
      fun hx => hx.2 hadd
    refine ⟨{ s with
      pendingRemovedIPSets :=
        if id ∈ s.sentIPSets then sAdd s.pendingRemovedIPSets id
        else s.pendingRemovedIPSets
      pendingAddedIPSets := sDel s.pendingAddedIPSets id
      pendingAddedIPs := mdDiscardKey s.pendingAddedIPs id
      pendingRemovedIPs := mdDiscardKey s.pendingRemovedIPs id }, ?_, ?_⟩
    · unfold OnIPSetRemoved
      rw [if_neg hcond]
    · apply flush_no_ipset_mention
      · show id ∉ sDel s.pendingAddedIPSets id
        intro hmem
        exact ((mem_sDel _ _ _).1 hmem).2 rfl
      · show id ∉ (if id ∈ s.sentIPSets then sAdd s.pendingRemovedIPSets id
          else s.pendingRemovedIPSets)
        rw [if_neg hnotsent]
        intro hmem
        exact hnotsent (hsub id hmem)
      · exact not_mem_mdKeys_mdDiscardKey _ _
      · exact not_mem_mdKeys_mdDiscardKey _ _
  · intro hrem hknown
    have hcond : ¬(id ∉ s.sentIPSets ∧ id ∉ s.pendingAddedIPSets) := by
      rcases hknown with h | h
      · exact fun hx => hx.1 h
      · exact fun hx => hx.2 h
    unfold OnIPAdded
    rw [if_neg hcond, if_pos hrem]
  · intro hsent hsub hU hD
    refine ⟨?_, ?_, ?_⟩
    · show mGet? (mDel s.pendingEndpointUpdates k) k = none
      exact mGet?_mDel_self _ _
    · show mGet? (mDel s.pendingEndpointTierUpdates k) k = none
      exact mGet?_mDel_self _ _
    · apply flush_no_endpoint_mention
      · intro kv hkv
        have h1 := (mem_mDel _ _ _).1 hkv
        by_contra hcc
        rw [Bool.not_eq_false] at hcc
        exact h1.2 (hU kv h1.1 hcc)
      · intro x hx
        have hx' : x ∈ s.pendingEndpointDeletes := by
          revert hx
          show x ∈ (if k ∈ s.sentEndpoints then sAdd s.pendingEndpointDeletes k
            else s.pendingEndpointDeletes) → x ∈ s.pendingEndpointDeletes
          rw [if_neg hsent]
          exact fun hx => hx
        by_contra hcc
        rw [Bool.not_eq_false] at hcc
        have hk := hD x hx' hcc
        subst hk
        exact hsent (hsub x hx')

/-- Witness for C2 at a concrete state: set id a is pending-added and
unsent with a pending IP removal queued against it, and the endpoint key
was never sent. -/
theorem cancellation_before_flush_witness :
    (∃ s1, OnIPSetRemoved sC2 "a" = some s1 ∧
      ∀ m ∈ (Flush s1).2, mentionsIPSet "a" m = false) ∧
    (OnIPAdded sC2 "a" "10.0.0.2" =
      some { sC2 with
        pendingRemovedIPs := mdDiscard sC2.pendingRemovedIPs "a" "10.0.0.2" }) ∧
    (mGet? (OnEndpointTierUpdate sC2 kC2 none []).pendingEndpointUpdates kC2 = none ∧
     mGet? (OnEndpointTierUpdate sC2 kC2 none []).pendingEndpointTierUpdates kC2 = none ∧
     ∀ m ∈ (Flush (OnEndpointTierUpdate sC2 kC2 none [])).2,
       mentionsEndpoint kC2 m = false) := by
  have h := cancellation_before_flush sC2 "a" "10.0.0.2" kC2
  exact ⟨h.1 (by decide) (by decide) (by decide),
    h.2.1 (by decide) (by decide),
    h.2.2 (by decide) (by decide) (by decide) (by decide)⟩

/-! ## C4: the full-replacement rule -/

theorem filter_mention_nil_of_rank (id : String) (msgs : List Message) (k : Nat)
    (hk : ∀ m ∈ msgs, msgRank m = k) (h2 : k ≠ 2) (h3 : k ≠ 3) (h10 : k ≠ 10) :
    msgs.filter (mentionsIPSet id) = [] := by
  rw [List.filter_eq_nil_iff]
  intro m hm hmen
  have hr := mentionsIPSet_rank id m hmen
  have he := hk m hm
  omega

theorem filter_mention_nil_of_no_mention (id : String) (msgs : List Message)
    (h : ∀ m ∈ msgs, mentionsIPSet id m = true → False) :
    msgs.filter (mentionsIPSet id) = [] := by
  rw [List.filter_eq_nil_iff]
  exact h

theorem flushAddedIPSetsLoop_filter (l : List String) (id : String)
    (s : EventSequencer) (hl : id ∉ l) :
    ((flushAddedIPSetsLoop (l ++ [id]) s).2).filter (mentionsIPSet id) =
      [Message.ipSetUpdate id (mdValues s.pendingAddedIPs id)] := by
  induction l generalizing s with
  | nil =>
    simp [flushAddedIPSetsLoop, mentionsIPSet]
  | cons x rest ih =>
    have hrest : id ∉ rest := fun hc => hl (by simp [hc])
    have hne : id ≠ x := fun hc => hl (by rw [hc]; simp)
    have hxid : mentionsIPSet id
        (Message.ipSetUpdate x (mdValues s.pendingAddedIPs x)) = false := by
      simp only [mentionsIPSet, beq_eq_false_iff_ne, ne_eq]
      exact fun hc => hne hc.symm
    simp only [List.cons_append, flushAddedIPSetsLoop, List.filter_cons, hxid,
      Bool.false_eq_true, if_false]
    have := ih { s with
      pendingAddedIPs := mdDiscardKey s.pendingAddedIPs x
      sentIPSets := sAdd s.sentIPSets x } hrest
    rw [mdValues_mdDiscardKey_ne _ _ _ hne] at this
    exact this

theorem flushAddedIPSets_filter (s : EventSequencer) (id : String)
    (l : List String) (hshape : s.pendingAddedIPSets = l ++ [id]) (hl : id ∉ l) :
    ((flushAddedIPSets s).2).filter (mentionsIPSet id) =
      [Message.ipSetUpdate id (mdValues s.pendingAddedIPs id)] := by
  unfold flushAddedIPSets
  rw [hshape]
  exact flushAddedIPSetsLoop_filter l id _ hl

/-- The Flush of a state whose pending-added set list ends with the given
id (appearing only there) and which holds no other pending trace of the
id emits exactly one message about the set: an IPSetUpdate carrying the
pending members. -/
theorem flush_filter_ipset (s : EventSequencer) (id : String) (l : List String)
    (hshape : s.pendingAddedIPSets = l ++ [id]) (hl : id ∉ l)
    (hR : id ∉ s.pendingRemovedIPSets)
    (hRk : id ∉ mdKeys s.pendingRemovedIPs) :
    ((Flush s).2).filter (mentionsIPSet id) =
      [Message.ipSetUpdate id (mdValues s.pendingAddedIPs id)] := by
  have e1 := filter_mention_nil_of_rank id _ 0 (flushReadyFlag_rank s)
    (by omega) (by omega) (by omega)
  have e2 := filter_mention_nil_of_rank id _ 1
    (flushConfigUpdate_rank (flushStage1 s)) (by omega) (by omega) (by omega)
  have e3 : ((flushAddedIPSets (flushStage2 s)).2).filter (mentionsIPSet id) =
      [Message.ipSetUpdate id (mdValues s.pendingAddedIPs id)] := by
    have hsh : (flushStage2 s).pendingAddedIPSets = l ++ [id] := by
      rw [flushStage2_pendingAddedIPSets, hshape]
    have := flushAddedIPSets_filter (flushStage2 s) id l hsh hl
    rwa [flushStage2_pendingAddedIPs] at this
  have e4 : ((flushIPSetDeltas (flushStage3 s)).2).filter (mentionsIPSet id) = [] := by
    apply filter_mention_nil_of_no_mention
    intro m hm hmen
    have hid := flushIPSetDeltas_mention _ id m hm hmen
    rw [flushStage3_pendingRemovedIPs, flushStage3_pendingAddedIPs] at hid
    rcases hid with hid | hid
    · exact hRk hid
    · refine mem_mdKeys_foldl_of_mem_list _ _ _ ?_ hid
      rw [hshape]
      simp
  have e5 := filter_mention_nil_of_rank id _ 4
    (flushPolicyUpdates_rank (flushStage4 s)) (by omega) (by omega) (by omega)
  have e6 := filter_mention_nil_of_rank id _ 5
    (flushProfileUpdates_rank (flushStage5 s)) (by omega) (by omega) (by omega)
  have e7 := filter_mention_nil_of_rank id _ 6
    (flushEndpointTierUpdates_rank (flushStage6 s)) (by omega) (by omega) (by omega)
  have e8 := filter_mention_nil_of_rank id _ 7
    (flushEndpointTierDeletes_rank (flushStage7 s)) (by omega) (by omega) (by omega)
  have e9 := filter_mention_nil_of_rank id _ 8
    (flushProfileDeletes_rank (flushStage8 s)) (by omega) (by omega) (by omega)
  have e10 := filter_mention_nil_of_rank id _ 9
    (flushPolicyDeletes_rank (flushStage9 s)) (by omega) (by omega) (by omega)
  have e11 : ((flushRemovedIPSets (flushStage10 s)).2).filter (mentionsIPSet id) = [] := by
    apply filter_mention_nil_of_no_mention
    intro m hm hmen
    have hid := flushRemovedIPSets_mention _ id m hm hmen
    rw [flushStage10_pendingRemovedIPSets] at hid
    exact hR hid
  have e12 := filter_mention_nil_of_rank id _ 11
    (flushHostIPDeletes_rank (flushStage11 s)) (by omega) (by omega) (by omega)
  have e13 := filter_mention_nil_of_rank id _ 12
    (flushHostIPUpdates_rank (flushStage12 s)) (by omega) (by omega) (by omega)
  have e14 := filter_mention_nil_of_rank id _ 13
    (flushIPPoolDeletes_rank (flushStage13 s)) (by omega) (by omega) (by omega)
  have e15 := filter_mention_nil_of_rank id _ 14
    (flushIPPoolUpdates_rank (flushStage14 s)) (by omega) (by omega) (by omega)
  rw [flush_msgs_eq]
  simp only [List.filter_append, e1, e2, e3, e4, e5, e6, e7, e8, e9, e10, e11,
    e12, e13, e14, e15]
  simp

theorem OnIPAdded_put (s : EventSequencer) (id a : String)
    (h1 : id ∈ s.pendingAddedIPSets) (h2 : (id, a) ∉ s.pendingRemovedIPs) :
    OnIPAdded s id a =
      some { s with pendingAddedIPs := mdPut s.pendingAddedIPs id a } := by
  unfold OnIPAdded
  rw [if_neg (fun hx => hx.2 h1), if_neg h2]

theorem applyIPAdds_spec (addrs : List String) (s : EventSequencer) (id : String)
    (h1 : id ∈ s.pendingAddedIPSets) (h2 : ∀ v, (id, v) ∉ s.pendingRemovedIPs) :
    applyIPAdds s id addrs =
      some { s with
        pendingAddedIPs :=
          List.foldl (fun acc v => mdPut acc id v) s.pendingAddedIPs addrs } := by
  induction addrs generalizing s with
  | nil => rfl
  | cons a rest ih =>
    show (match OnIPAdded s id a with
      | none => none
      | some s1 => applyIPAdds s1 id rest) = _
    rw [OnIPAdded_put s id a h1 (h2 a)]
    have hstep :=
      ih { s with pendingAddedIPs := mdPut s.pendingAddedIPs id a } h1 h2
    show applyIPAdds { s with pendingAddedIPs := mdPut s.pendingAddedIPs id a }
        id rest = _
    rw [hstep]
    rfl

/-- C4: the full-replacement rule.  If a set already sent downstream is
removed, re-added and given members before the next Flush, that Flush
emits exactly one message about the set — an IPSetUpdate with the full
current membership — and neither an IPSetRemove nor an IPSetDeltaUpdate
for it. -/
theorem full_replacement_rule (s : EventSequencer) (id : String)
    (addrs : List String) (hsent : id ∈ s.sentIPSets) (hnd : addrs.Nodup) :
    ∃ s1 s2 s3,
      OnIPSetRemoved s id = some s1 ∧
      OnIPSetAdded s1 id = some s2 ∧
      applyIPAdds s2 id addrs = some s3 ∧
      ((Flush s3).2).filter (mentionsIPSet id) =
        [Message.ipSetUpdate id addrs] := by
  refine ⟨{ s with
      pendingRemovedIPSets := sAdd s.pendingRemovedIPSets id
      pendingAddedIPSets := sDel s.pendingAddedIPSets id
      pendingAddedIPs := mdDiscardKey s.pendingAddedIPs id
      pendingRemovedIPs := mdDiscardKey s.pendingRemovedIPs id },
    { s with
      pendingAddedIPSets := sAdd (sDel s.pendingAddedIPSets id) id
      pendingRemovedIPSets := sDel (sAdd s.pendingRemovedIPSets id) id
      pendingAddedIPs := mdDiscardKey (mdDiscardKey s.pendingAddedIPs id) id
      pendingRemovedIPs := mdDiscardKey (mdDiscardKey s.pendingRemovedIPs id) id },
    { s with
      pendingAddedIPSets := sAdd (sDel s.pendingAddedIPSets id) id
      pendingRemovedIPSets := sDel (sAdd s.pendingRemovedIPSets id) id
      pendingAddedIPs :=
        List.foldl (fun acc v => mdPut acc id v)
          (mdDiscardKey (mdDiscardKey s.pendingAddedIPs id) id) addrs
      pendingRemovedIPs := mdDiscardKey (mdDiscardKey s.pendingRemovedIPs id) id },
    ?_, ?_, ?_, ?_⟩
  · unfold OnIPSetRemoved
    rw [if_neg (fun hx => hx.1 hsent), if_pos hsent]
  · unfold OnIPSetAdded
    rw [if_neg]
    intro hx
    exact hx.2 ((mem_sAdd _ _ _).2 (Or.inr rfl))
  · apply applyIPAdds_spec
    · exact (mem_sAdd _ _ _).2 (Or.inr rfl)
    · intro v hv
      exact ((mem_mdDiscardKey _ _ _).1 hv).2 rfl
  · have hvals : mdValues
        (List.foldl (fun acc v => mdPut acc id v)
          (mdDiscardKey (mdDiscardKey s.pendingAddedIPs id) id) addrs) id =
        addrs := by
      rw [mdValues_foldl_mdPut addrs _ id hnd
        (fun v hv hmem => ((mem_mdDiscardKey _ _ _).1 hmem).2 rfl),
        mdValues_mdDiscardKey_self]
      simp
    have hres := flush_filter_ipset
      { s with
        pendingAddedIPSets := sAdd (sDel s.pendingAddedIPSets id) id
        pendingRemovedIPSets := sDel (sAdd s.pendingRemovedIPSets id) id
        pendingAddedIPs :=
          List.foldl (fun acc v => mdPut acc id v)
            (mdDiscardKey (mdDiscardKey s.pendingAddedIPs id) id) addrs
        pendingRemovedIPs := mdDiscardKey (mdDiscardKey s.pendingRemovedIPs id) id }
      id (sDel s.pendingAddedIPSets id) ?_ ?_ ?_ ?_
    · rw [hvals] at hres
      exact hres
    · show sAdd (sDel s.pendingAddedIPSets id) id = sDel s.pendingAddedIPSets id ++ [id]
      apply sAdd_of_not_mem
      intro hmem
      exact ((mem_sDel _ _ _).1 hmem).2 rfl
    · intro hmem
      exact ((mem_sDel _ _ _).1 hmem).2 rfl
    · show id ∉ (sDel (sAdd s.pendingRemovedIPSets id) id)
      intro hmem
      exact ((mem_sDel _ _ _).1 hmem).2 rfl
    · exact not_mem_mdKeys_mdDiscardKey _ _

/-- Witness for C4: a set id a sent in an earlier flush, removed,
re-added and given two members; the next Flush emits exactly one
IPSetUpdate with the full membership. -/
theorem full_replacement_rule_witness :
    ∃ s1 s2 s3,
      OnIPSetRemoved sC4 "a" = some s1 ∧
      OnIPSetAdded s1 "a" = some s2 ∧
      applyIPAdds s2 "a" ["10.0.0.1", "10.0.0.2"] = some s3 ∧
      ((Flush s3).2).filter (mentionsIPSet "a") =
        [Message.ipSetUpdate "a" ["10.0.0.1", "10.0.0.2"]] :=
  full_replacement_rule sC4 "a" ["10.0.0.1", "10.0.0.2"] (by decide) (by decide)

/-! ## C8: the tracked/untracked split of endpoint tiers -/

theorem tierInfoToProtoTierInfo_foldl (ts : List TierInfo)
    (acc : List ProtoTierInfo × List ProtoTierInfo) :
    List.foldl
      (fun acc ti =>
        let trackedPols :=
          (ti.orderedPolicies.filter (fun kv => kv.value.doNotTrack = false)).map
            (fun kv => kv.key.name)
        let untrackedPols :=
          (ti.orderedPolicies.filter (fun kv => kv.value.doNotTrack = true)).map
            (fun kv => kv.key.name)
        ((if trackedPols.isEmpty then acc.1
          else acc.1 ++ [{ name := ti.name, policies := trackedPols }]),
         (if untrackedPols.isEmpty then acc.2
          else acc.2 ++ [{ name := ti.name, policies := untrackedPols }])))
      acc ts =
    (acc.1 ++ ts.filterMap trackedTierOf, acc.2 ++ ts.filterMap untrackedTierOf) := by
  induction ts generalizing acc with
  | nil => simp
  | cons ti rest ih =>
    rw [List.foldl_cons, ih]
    simp only [trackedTierOf, untrackedTierOf, List.filterMap_cons]
    split_ifs <;> simp_all [List.append_assoc]

theorem flushEndpointTierUpdatesLoop_msgs (items : List (EndpointKey × EndpointValue))
    (s : EventSequencer) (hnd : (items.map Prod.fst).Nodup) :
    ∀ m ∈ (flushEndpointTierUpdatesLoop items s).2,
      ∃ kv ∈ items,
        endpointUpdateMsg kv.1 kv.2
          (tierInfoToProtoTierInfo
            ((mGet? s.pendingEndpointTierUpdates kv.1).getD [])).1
          (tierInfoToProtoTierInfo
            ((mGet? s.pendingEndpointTierUpdates kv.1).getD [])).2 = some m := by
  induction items generalizing s with
  | nil => simp [flushEndpointTierUpdatesLoop]
  | cons kv0 rest ih =>
    cases kv0 with
    | mk key v =>
      rw [List.map_cons, List.nodup_cons] at hnd
      intro m hm
      simp only [flushEndpointTierUpdatesLoop, List.mem_append] at hm
      rcases hm with hm | hm
      · rcases ho : endpointUpdateMsg key v
            (tierInfoToProtoTierInfo
              ((mGet? s.pendingEndpointTierUpdates key).getD [])).1
            (tierInfoToProtoTierInfo
              ((mGet? s.pendingEndpointTierUpdates key).getD [])).2 with _ | m'
        · simp [ho] at hm
        · simp [ho, Option.toList] at hm
          subst hm
          exact ⟨(key, v), by simp, ho⟩
      · obtain ⟨kv, hkv, hmsg⟩ := ih _ hnd.2 m hm
        have hne : kv.1 ≠ key := by
          intro hc
          have hmem := List.mem_map_of_mem Prod.fst hkv
          rw [hc] at hmem
          exact hnd.1 hmem
        dsimp only at hmsg
        rw [mGet?_mDel_ne _ _ _ hne] at hmsg
        exact ⟨kv, by simp [hkv], hmsg⟩

/-- C8 (amended): for every endpoint flushed, each tier's ordered
policies are partitioned by the do-not-track flag into a tracked and an
untracked name list, a proto TierInfo being produced only when the list
is non-empty; every flushed endpoint update message is built from its
pending entry with the tracked tiers passed as the Tiers payload, and the
untracked tiers passed as UntrackedTiers on a HOST endpoint update only —
a workload endpoint update carries no untracked-tier field, so its
untracked tiers are dropped.  (The claim as frozen asserts the untracked
tiers are carried by every endpoint update; the counterexample refutes
that for workload endpoints.) -/
theorem endpoint_tier_split_amended (s : EventSequencer)
    (hnd : (s.pendingEndpointUpdates.map Prod.fst).Nodup) :
    (∀ ts : List TierInfo,
      tierInfoToProtoTierInfo ts =
        (ts.filterMap trackedTierOf, ts.filterMap untrackedTierOf)) ∧
    (∀ (key : EndpointKey) (ep : EndpointValue) (t u : List ProtoTierInfo)
        (m : Message), endpointUpdateMsg key ep t u = some m →
      msgTiers m = some t ∧
      (∀ h e, key = EndpointKey.host h e → msgUntrackedTiers m = some u) ∧
      (∀ h o w e, key = EndpointKey.workload h o w e →
        msgUntrackedTiers m = none)) ∧
    (∀ m ∈ (flushEndpointTierUpdates s).2,
      ∃ kv ∈ s.pendingEndpointUpdates,
        endpointUpdateMsg kv.1 kv.2
          (tierInfoToProtoTierInfo
            ((mGet? s.pendingEndpointTierUpdates kv.1).getD [])).1
          (tierInfoToProtoTierInfo
            ((mGet? s.pendingEndpointTierUpdates kv.1).getD [])).2 = some m) := by
  refine ⟨?_, ?_, ?_⟩
  · intro ts
    unfold tierInfoToProtoTierInfo
    rw [tierInfoToProtoTierInfo_foldl]
    simp
  · intro key ep t u m h
    cases key <;> cases ep <;>
      simp [endpointUpdateMsg, modelWorkloadEndpointToProtoMsg,
        modelHostEndpointToProtoMsg] at h
    · subst h
      refine ⟨rfl, ?_, ?_⟩
      · intro h e hc
        cases hc
      · intro h o w e hc
        rfl
    · subst h
      refine ⟨rfl, ?_, ?_⟩
      · intro h e hc
        cases hc
        rfl
      · intro h o w e hc
        cases hc
  · intro m hm
    unfold flushEndpointTierUpdates at hm
    have h := flushEndpointTierUpdatesLoop_msgs s.pendingEndpointUpdates
      { s with pendingEndpointUpdates := [] } hnd m hm
    exact h

/-- Counterexample refuting C8 as frozen: a workload endpoint whose only
applicable policy is untracked is flushed as a WorkloadEndpointUpdate
whose payload has no untracked tiers at all, even though the untracked
partition is non-empty — the message does not carry the untracked tiers
as UntrackedTiers. -/
theorem endpoint_tier_split_counterexample :
    (Flush sC8).2 =
      [Message.workloadEndpointUpdate "orch" "wl1" "ep1" "active" "cali1" ""
        [] [] [] [] [] []] ∧
    (tierInfoToProtoTierInfo [tierC8]).2 =
      [{ name := "default", policies := ["polU"] }] ∧
    msgUntrackedTiers
      (Message.workloadEndpointUpdate "orch" "wl1" "ep1" "active" "cali1" ""
        [] [] [] [] [] []) ≠
      some (tierInfoToProtoTierInfo [tierC8]).2 := by
  decide

/-- Witness for the amended C8 at the concrete one-endpoint state. -/
theorem endpoint_tier_split_amended_witness :
    (∀ ts : List TierInfo,
      tierInfoToProtoTierInfo ts =
        (ts.filterMap trackedTierOf, ts.filterMap untrackedTierOf)) ∧
    (∀ (key : EndpointKey) (ep : EndpointValue) (t u : List ProtoTierInfo)
        (m : Message), endpointUpdateMsg key ep t u = some m →
      msgTiers m = some t ∧
      (∀ h e, key = EndpointKey.host h e → msgUntrackedTiers m = some u) ∧
      (∀ h o w e, key = EndpointKey.workload h o w e →
        msgUntrackedTiers m = none)) ∧
    (∀ m ∈ (flushEndpointTierUpdates sC8).2,
      ∃ kv ∈ sC8.pendingEndpointUpdates,
        endpointUpdateMsg kv.1 kv.2
          (tierInfoToProtoTierInfo
            ((mGet? sC8.pendingEndpointTierUpdates kv.1).getD [])).1
          (tierInfoToProtoTierInfo
            ((mGet? sC8.pendingEndpointTierUpdates kv.1).getD [])).2 = some m) :=
  endpoint_tier_split_amended sC8 (by decide)

/-! ## C10: the IP-pool pending-state invariant is violated by the code -/

/-- C10 failing input: update a pool, flush, remove the pool, then update
it again.  Because OnIPPoolUpdate passes the model.IPPoolKey value to the
pending-delete set's Discard while that set stores ip.CIDR values, the
discard never matches; the CIDR then sits in both pendingIPPoolUpdates
and pendingIPPoolDeletes, and the next Flush emits an IPAMPoolRemove
followed by an IPAMPoolUpdate instead of the single update the
cancellation invariant promises. -/
theorem ippool_pending_overlap_bug :
    "10.1.0.0/16" ∈ sC10.pendingIPPoolUpdates.map Prod.fst ∧
    "10.1.0.0/16" ∈ sC10.pendingIPPoolDeletes ∧
    (Flush sC10).2 =
      [Message.ipamPoolRemove "10.1.0.0-16",
       Message.ipamPoolUpdate "10.1.0.0-16" "10.1.0.0/16" false] := by
  decide

end Felix
